import Mathlib

/-!
Verification of the battery-swap-station simulator (HACKSMART-2026).

This file gives a shallow embedding of the core components of the repository
and settles the claims C1..C10 about them:

* `src/kpis/calculator.py` — charger utilization and time-weighted average
  inventory (claims C8, C10);
* `src/scenarios/applicator.py` together with the `src/config/schema.py`
  data model — scenario application over an explicit object heap, so that
  mutation and aliasing are observable (claims C2, C6, C7);
* `src/simulation/demand.py` — effective-rate computation, modifier
  activation and the zero-rate fallback (claims C4, C5);
* `src/simulation/station.py` under the SimPy event loop — a small-step
  interpreter with the exact heap discipline (time, priority,
  event-id) of SimPy, the container FIFO get-queue, and the AnyOf
  condition timing (claims C1, C3, C9).

Numbers: Python floats are modelled as exact rationals (`ℚ`) except where a
claim needs real-valued trigonometry (haversine), which uses `ℝ`.  Python
ints that can go negative are modelled as `ℤ`; counters that the code only
increments are `ℕ`.
-/

namespace HackSmart

/-! ## KPI calculator (`src/kpis/calculator.py`)

`ChargeEvent` and `InventoryEvent` mirror the dataclasses in
`src/simulation/station.py` (the `station_id` field plays no role in the KPI
computations and is omitted). -/

/-- Record of a charging event (`ChargeEvent` in `station.py`);
`event_type` is `"charge_start"` or `"charge_end"`. -/
structure ChargeEvent where
  time : ℚ
  event_type : String
deriving DecidableEq

/-- Record of an inventory snapshot (`InventoryEvent` in `station.py`). -/
structure InventoryEvent where
  time : ℚ
  charged_count : ℤ
  depleted_count : ℤ
deriving DecidableEq

/-- Number of `"charge_end"` events, as counted by
`KPICalculator._calculate_charger_utilization`
(`charge_ends = [e for e in charge_events if e.event_type == "charge_end"]`). -/
def countChargeEnds (charge_events : List ChargeEvent) : ℕ :=
  (charge_events.filter (fun e => e.event_type = "charge_end")).length

/-- `KPICalculator._calculate_charger_utilization` (calculator.py lines
273-306): returns `0.0` when there are no charge events or
`num_chargers <= 0`; otherwise
`min(completed_charges * charge_duration / (simulation_duration * num_chargers), 1.0)`,
with the division guarded by `total_available_time > 0`. -/
def calculateChargerUtilization (charge_events : List ChargeEvent)
    (simulation_duration : ℚ) (charge_duration : ℚ) (num_chargers : ℤ) : ℚ :=
  if charge_events = [] ∨ num_chargers ≤ 0 then 0
  else
    min
      (if simulation_duration * (num_chargers : ℚ) > 0
        then (countChargeEnds charge_events : ℚ) * charge_duration
              / (simulation_duration * (num_chargers : ℚ))
        else 0)
      1

/-- `KPICalculator._calculate_avg_inventory` inner loop (calculator.py lines
318-330): for consecutive snapshots accumulate
`current.charged_count * (next.time - current.time)`, and for the last
snapshot `last.charged_count * (simulation_duration - last.time)`. -/
def weightedInventorySum : List InventoryEvent → ℚ → ℚ
  | [], _ => 0
  | [e], sd => (e.charged_count : ℚ) * (sd - e.time)
  | e1 :: e2 :: rest, sd =>
      (e1.charged_count : ℚ) * (e2.time - e1.time) + weightedInventorySum (e2 :: rest) sd

/-- `KPICalculator._calculate_avg_inventory` (calculator.py lines 308-336):
`0.0` on an empty snapshot list, otherwise the weighted sum divided by the
simulation duration (guarded by `simulation_duration > 0`). -/
def calculateAvgInventory (inventory_events : List InventoryEvent)
    (simulation_duration : ℚ) : ℚ :=
  if inventory_events = [] then 0
  else if simulation_duration > 0
    then weightedInventorySum inventory_events simulation_duration / simulation_duration
    else 0

/-- Trapezoidal integration of the charged count over the snapshots,
extended (constantly) to the end of the horizon — the quantity named by the
spec sentence "trapezoidal integration over inventory snapshots".  This is
the spec-side definition used to compare against the code. -/
def trapezoidIntegral : List InventoryEvent → ℚ → ℚ
  | [], _ => 0
  | [e], sd => (e.charged_count : ℚ) * (sd - e.time)
  | e1 :: e2 :: rest, sd =>
      ((e1.charged_count : ℚ) + (e2.charged_count : ℚ)) / 2 * (e2.time - e1.time)
        + trapezoidIntegral (e2 :: rest) sd

instance : Inhabited InventoryEvent := ⟨⟨0, 0, 0⟩⟩

/-- Left-endpoint (piecewise-constant) integral of the charged count,
written as an indexed sum: snapshot `i` is weighted by the time to snapshot
`i+1`, the last snapshot by the time to the horizon.  Spec-side definition
for the amended claim C10. -/
def leftStepIntegral (events : List InventoryEvent) (sd : ℚ) : ℚ :=
  ∑ i in Finset.range events.length,
    ((events.getD i default).charged_count : ℚ) *
      ((if i + 1 < events.length then (events.getD (i + 1) default).time else sd)
        - (events.getD i default).time)

lemma weightedInventorySum_eq_leftStepIntegral (events : List InventoryEvent) (sd : ℚ) :
    weightedInventorySum events sd = leftStepIntegral events sd := by
  induction events with
  | nil => simp [weightedInventorySum, leftStepIntegral]
  | cons e rest ih =>
    rw [leftStepIntegral, List.length_cons, Finset.sum_range_succ']
    cases rest with
    | nil => simp [weightedInventorySum]
    | cons e2 rest2 =>
      rw [weightedInventorySum, ih, leftStepIntegral, add_comm]
      congr 1
      · apply Finset.sum_congr rfl
        intro i _
        simp only [List.getD_cons_succ, List.length_cons]
        rw [if_congr (by omega :
          i + 1 + 1 < rest2.length + 1 + 1 ↔ i + 1 < rest2.length + 1) rfl rfl]
      · simp only [List.getD_cons_succ, List.getD_cons_zero, List.length_cons]
        rw [if_pos (by omega : 0 + 1 < rest2.length + 1 + 1)]

/-! ### Claim C8 — charger utilization formula and bound -/

/-- C8 (counterexample): the claim quantifies over every charge duration, but
with a negative `charge_duration` (representable, never validated by
`OperationalConfig`) the computed utilization is `-1`, outside `[0, 1]`:
one completed charge event, `simulation_duration = 1`, `charge_duration = -1`,
`num_chargers = 1`. -/
theorem C8_counterexample :
    calculateChargerUtilization [⟨0, "charge_end"⟩] 1 (-1) 1 = -1 ∧
      ¬ (0 ≤ calculateChargerUtilization [⟨0, "charge_end"⟩] 1 (-1) 1) := by
  have hcount : countChargeEnds [⟨0, "charge_end"⟩] = 1 := by
    simp [countChargeEnds]
  have hval : calculateChargerUtilization [⟨0, "charge_end"⟩] 1 (-1) 1 = -1 := by
    rw [calculateChargerUtilization, if_neg (by simp), hcount]
    norm_num [min_def]
  exact ⟨hval, by rw [hval]; norm_num⟩

/-- C8 (amended): for any list of charge events, any `charge_duration ≥ 0`,
any `simulation_duration > 0` and any `num_chargers ≥ 1`, the computed
charger utilization equals the number of completed (`charge_end`) events
times the charge duration divided by `simulation_duration * num_chargers`,
capped at `1.0`, and the result lies in `[0, 1]`. -/
theorem C8_utilization (events : List ChargeEvent) (sd cd : ℚ) (n : ℤ)
    (hn : 1 ≤ n) (hcd : 0 ≤ cd) (hsd : 0 < sd) :
    calculateChargerUtilization events sd cd n
        = min ((countChargeEnds events : ℚ) * cd / (sd * (n : ℚ))) 1 ∧
      0 ≤ calculateChargerUtilization events sd cd n ∧
      calculateChargerUtilization events sd cd n ≤ 1 := by
  have hnq : (0 : ℚ) < (n : ℚ) := by exact_mod_cast lt_of_lt_of_le zero_lt_one hn
  have hpos : 0 < sd * (n : ℚ) := mul_pos hsd hnq
  have hformula : calculateChargerUtilization events sd cd n
      = min ((countChargeEnds events : ℚ) * cd / (sd * (n : ℚ))) 1 := by
    unfold calculateChargerUtilization
    by_cases he : events = []
    · rw [if_pos (Or.inl he), he]
      simp [countChargeEnds]
    · rw [if_neg (by push_neg; exact ⟨he, by omega⟩), if_pos hpos]
  refine ⟨hformula, ?_, ?_⟩
  · rw [hformula]
    exact le_min (div_nonneg (mul_nonneg (Nat.cast_nonneg _) hcd) hpos.le) zero_le_one
  · rw [hformula]
    exact min_le_right _ _

/-- C8 witness: the amended utilization theorem at a concrete input
(one completed charge, `sd = 2`, `cd = 1`, one charger). -/
theorem C8_utilization_witness :
    calculateChargerUtilization [⟨0, "charge_end"⟩] 2 1 1
        = min ((countChargeEnds [⟨0, "charge_end"⟩] : ℚ) * 1 / (2 * ((1 : ℤ) : ℚ))) 1 ∧
      0 ≤ calculateChargerUtilization [⟨0, "charge_end"⟩] 2 1 1 ∧
      calculateChargerUtilization [⟨0, "charge_end"⟩] 2 1 1 ≤ 1 :=
  C8_utilization [⟨0, "charge_end"⟩] 2 1 1 (by decide) (by decide) (by decide)

/-! ### Claim C10 — time-weighted average charged inventory -/

/-- C10 (counterexample): the code integrates the charged count as a
left-endpoint step function, not by the trapezoidal rule.  With snapshots
`(t=0, charged=0)` and `(t=1, charged=2)` over a horizon of `2`, the code
reports `1` while trapezoidal integration divided by the horizon gives
`3/2`. -/
theorem C10_counterexample :
    calculateAvgInventory [⟨0, 0, 0⟩, ⟨1, 2, 0⟩] 2 = 1 ∧
      trapezoidIntegral [⟨0, 0, 0⟩, ⟨1, 2, 0⟩] 2 / 2 = 3 / 2 ∧
      calculateAvgInventory [⟨0, 0, 0⟩, ⟨1, 2, 0⟩] 2
        ≠ trapezoidIntegral [⟨0, 0, 0⟩, ⟨1, 2, 0⟩] 2 / 2 := by
  have h1 : calculateAvgInventory [⟨0, 0, 0⟩, ⟨1, 2, 0⟩] 2 = 1 := by
    rw [calculateAvgInventory, if_neg (by simp), if_pos (by norm_num)]
    norm_num [weightedInventorySum]
  have h2 : trapezoidIntegral [⟨0, 0, 0⟩, ⟨1, 2, 0⟩] 2 / 2 = 3 / 2 := by
    norm_num [trapezoidIntegral]
  refine ⟨h1, h2, ?_⟩
  rw [h1, h2]
  norm_num

/-- C10 (amended): for every snapshot list and every positive horizon, the
reported time-weighted average charged inventory equals the left-endpoint
(piecewise-constant) integration of the charged count over the snapshots,
each snapshot weighted by the time to the next one and the last extended to
the end of the horizon, divided by the horizon. -/
theorem C10_avg_inventory (events : List InventoryEvent) (sd : ℚ) (hsd : 0 < sd) :
    calculateAvgInventory events sd = leftStepIntegral events sd / sd := by
  unfold calculateAvgInventory
  by_cases he : events = []
  · rw [if_pos he, he]
    simp [leftStepIntegral]
  · rw [if_neg he, if_pos hsd, weightedInventorySum_eq_leftStepIntegral]

/-- C10 witness: the amended average-inventory theorem at a concrete input. -/
theorem C10_avg_inventory_witness :
    calculateAvgInventory [⟨0, 3, 0⟩, ⟨1, 2, 1⟩] 2
      = leftStepIntegral [⟨0, 3, 0⟩, ⟨1, 2, 1⟩] 2 / 2 :=
  C10_avg_inventory [⟨0, 3, 0⟩, ⟨1, 2, 1⟩] 2 (by decide)

/-! ## Demand generator (`src/simulation/demand.py`)

Real-valued because the haversine distance uses trigonometry.  Modifier
dictionaries are modelled as records carrying exactly the keys the
applicator writes (`_apply_weather_demand` / `_apply_event_demand` always
produce all keys, with `latitude`/`longitude` possibly `None`); the
`.get(key, default)` reads in `demand.py` are therefore total. -/

/-- Python `math.atan2`, written piecewise (haversine only calls it with
nonnegative arguments, but the full definition is kept). -/
noncomputable def arctan2 (y x : ℝ) : ℝ :=
  if 0 < x then Real.arctan (y / x)
  else if x < 0 then
    (if 0 ≤ y then Real.arctan (y / x) + Real.pi else Real.arctan (y / x) - Real.pi)
  else (if 0 < y then Real.pi / 2 else if y < 0 then -(Real.pi / 2) else 0)

/-- Python `math.radians`. -/
noncomputable def radians (d : ℝ) : ℝ := d * Real.pi / 180

/-- `haversine` (demand.py lines 9-42): great-circle distance in km between
two latitude/longitude points on a spherical Earth of radius 6371 km. -/
noncomputable def haversine (lat1 lon1 lat2 lon2 : ℝ) : ℝ :=
  let R : ℝ := 6371
  let lat1_rad := radians lat1
  let lon1_rad := radians lon1
  let lat2_rad := radians lat2
  let lon2_rad := radians lon2
  let dlat := lat2_rad - lat1_rad
  let dlon := lon2_rad - lon1_rad
  let a := Real.sin (dlat / 2) ^ 2
    + Real.cos lat1_rad * Real.cos lat2_rad * Real.sin (dlon / 2) ^ 2
  let c := 2 * arctan2 (Real.sqrt a) (Real.sqrt (1 - a))
  R * c

/-- A weather modifier dict as built by
`ScenarioApplicator._apply_weather_demand` (scope `"global"`, plus
multiplier and hour window). -/
structure WeatherModifier where
  scope : String
  multiplier : ℝ
  start_hour : ℤ
  end_hour : ℤ

/-- An event modifier dict as built by
`ScenarioApplicator._apply_event_demand` (scope `"geo"`, coordinates which
may be `None`, radius, multiplier and hour window). -/
structure EventModifier where
  scope : String
  latitude : Option ℝ
  longitude : Option ℝ
  radius_km : ℝ
  multiplier : ℝ
  start_hour : ℤ
  end_hour : ℤ

/-- `DemandGenerator._is_hour_in_window` (demand.py lines 193-211). -/
def isHourInWindow (current_hour start_hour end_hour : ℤ) : Bool :=
  if start_hour ≤ end_hour then
    decide (start_hour ≤ current_hour ∧ current_hour < end_hour)
  else
    decide (current_hour ≥ start_hour ∨ current_hour < end_hour)

/-- One step of the weather-modifier loop in
`DemandGenerator._apply_demand_modifiers` (demand.py lines 152-159). -/
def applyWeatherModifier (current_hour : ℤ) (acc : ℝ) (m : WeatherModifier) : ℝ :=
  if isHourInWindow current_hour m.start_hour m.end_hour then acc * m.multiplier else acc

/-- One step of the event-modifier loop in
`DemandGenerator._apply_demand_modifiers` (demand.py lines 162-189):
skip when outside the hour window; for scope `"geo"` with both station and
event coordinates present, apply the multiplier only when the haversine
distance is within `radius_km`; for scope `"global"` apply unconditionally. -/
noncomputable def applyEventModifier (station_lat station_lon : Option ℝ)
    (current_hour : ℤ) (acc : ℝ) (m : EventModifier) : ℝ :=
  if isHourInWindow current_hour m.start_hour m.end_hour = false then acc
  else if m.scope = "geo" ∧ station_lat.isSome ∧ station_lon.isSome then
    match m.latitude, m.longitude with
    | some event_lat, some event_lon =>
        if haversine (station_lat.getD 0) (station_lon.getD 0) event_lat event_lon
            ≤ m.radius_km
          then acc * m.multiplier else acc
    | _, _ => acc
  else if m.scope = "global" then acc * m.multiplier
  else acc

/-- `DemandGenerator._apply_demand_modifiers` (demand.py lines 137-191):
start from `1.0`, fold the weather modifiers, then the event modifiers. -/
noncomputable def applyDemandModifiers (station_lat station_lon : Option ℝ)
    (current_hour : ℤ) (weather_modifiers : List WeatherModifier)
    (event_modifiers : List EventModifier) : ℝ :=
  event_modifiers.foldl (applyEventModifier station_lat station_lon current_hour)
    (weather_modifiers.foldl (applyWeatherModifier current_hour) 1)

/-- `int((current_time_minutes / 60) % 24)` of `_calculate_rate`: Python
float `%` returns a value in `[0, 24)` and `int` truncates toward zero,
which on a nonnegative value is the floor. -/
noncomputable def hourOfTime (t : ℝ) : ℤ :=
  ⌊t / 60 - 24 * (⌊t / 60 / 24⌋ : ℤ)⌋

/-- `DemandGenerator._calculate_rate` (demand.py lines 117-135):
`base_rate * time_multipliers.get(hour, 1.0) * scenario_multiplier`
times the combined modifier multiplier. -/
noncomputable def calculateRate (base_rate : ℝ) (time_multipliers : ℤ → Option ℝ)
    (scenario_multiplier : ℝ) (station_lat station_lon : Option ℝ)
    (weather_modifiers : List WeatherModifier) (event_modifiers : List EventModifier)
    (t : ℝ) : ℝ :=
  base_rate * ((time_multipliers (hourOfTime t)).getD 1) * scenario_multiplier
    * applyDemandModifiers station_lat station_lon (hourOfTime t)
        weather_modifiers event_modifiers

/-- Spec-side activation predicate for a time window: the hour lies in
`[start_hour, end_hour)`, with wraparound when `start_hour > end_hour`. -/
def specWindowActive (hour start_hour end_hour : ℤ) : Prop :=
  if end_hour < start_hour then start_hour ≤ hour ∨ hour < end_hour
  else start_hour ≤ hour ∧ hour < end_hour

instance (h s e : ℤ) : Decidable (specWindowActive h s e) :=
  if he : e < s then
    decidable_of_iff (s ≤ h ∨ h < e) (by simp [specWindowActive, he])
  else
    decidable_of_iff (s ≤ h ∧ h < e) (by simp [specWindowActive, he])

/-- Spec-side activation predicate for a geo-scoped event modifier with
coordinates `elat`/`elon`: active in its hour window and with the station
within `radius_km` (haversine distance). -/
def specEventActive (slat slon : ℝ) (hour : ℤ) (m : EventModifier)
    (elat elon : ℝ) : Prop :=
  specWindowActive hour m.start_hour m.end_hour ∧
    haversine slat slon elat elon ≤ m.radius_km

lemma isHourInWindow_eq_specWindowActive (h s e : ℤ) :
    isHourInWindow h s e = true ↔ specWindowActive h s e := by
  unfold isHourInWindow specWindowActive
  rcases le_or_lt s e with hle | hlt
  · rw [if_pos hle, if_neg (by omega)]
    simp
  · rw [if_neg (by omega), if_pos hlt]
    simp [ge_iff_le]

lemma weatherFoldl_eq_prod (h : ℤ) (ws : List WeatherModifier) (a : ℝ) :
    ws.foldl (applyWeatherModifier h) a
      = a * (ws.map (fun m =>
          if specWindowActive h m.start_hour m.end_hour then m.multiplier else 1)).prod := by
  induction ws generalizing a with
  | nil => simp
  | cons m rest ih =>
    simp only [List.foldl_cons, List.map_cons, List.prod_cons, ih]
    unfold applyWeatherModifier
    by_cases hw : isHourInWindow h m.start_hour m.end_hour = true
    · rw [if_pos hw, if_pos ((isHourInWindow_eq_specWindowActive h _ _).mp hw)]
      ring
    · rw [if_neg hw,
        if_neg (fun hsp => hw ((isHourInWindow_eq_specWindowActive h _ _).mpr hsp))]
      ring

section ClassicalRate
open Classical

lemma eventFoldl_eq_prod (la lo : ℝ) (h : ℤ) (es : List EventModifier) (a : ℝ)
    (hes : ∀ m ∈ es, m.scope = "geo" ∧ m.latitude.isSome ∧ m.longitude.isSome) :
    es.foldl (applyEventModifier (some la) (some lo) h) a
      = a * (es.map (fun m =>
          if specEventActive la lo h m (m.latitude.getD 0) (m.longitude.getD 0)
            then m.multiplier else 1)).prod := by
  induction es generalizing a with
  | nil => simp
  | cons m rest ih =>
    obtain ⟨hscope, hlat, hlon⟩ := hes m (List.mem_cons_self m rest)
    obtain ⟨elat, helat⟩ := Option.isSome_iff_exists.mp hlat
    obtain ⟨elon, helon⟩ := Option.isSome_iff_exists.mp hlon
    have htail : ∀ m2 ∈ rest,
        m2.scope = "geo" ∧ m2.latitude.isSome ∧ m2.longitude.isSome :=
      fun m2 hm2 => hes m2 (List.mem_cons_of_mem m hm2)
    have hstep : applyEventModifier (some la) (some lo) h a m
        = a * (if specEventActive la lo h m (m.latitude.getD 0) (m.longitude.getD 0)
            then m.multiplier else 1) := by
      unfold applyEventModifier specEventActive
      simp only [helat, helon, Option.getD_some]
      by_cases hw : isHourInWindow h m.start_hour m.end_hour = true
      · rw [if_neg (by simp [hw]), if_pos ⟨hscope, by simp, by simp⟩]
        by_cases hd : haversine la lo elat elon ≤ m.radius_km
        · rw [if_pos hd,
            if_pos ⟨(isHourInWindow_eq_specWindowActive h _ _).mp hw, hd⟩]
        · rw [if_neg hd, if_neg (fun hc => hd hc.2)]
          ring
      · rw [if_pos (by simpa using hw),
          if_neg (fun hc =>
            hw ((isHourInWindow_eq_specWindowActive h _ _).mpr hc.1))]
        ring
    rw [List.foldl_cons, hstep, ih _ htail, List.map_cons, List.prod_cons]
    ring

/-! ### Claim C4 — effective-rate formula -/

/-- C4: whenever the demand generator computes a rate at simulated time `t`,
the effective hourly rate equals `base_rate` times the time-of-day
multiplier of the current hour, times the scenario multiplier, times the
product of the multipliers of all active modifiers: a modifier is active iff
the current hour lies in `[start_hour, end_hour)` with wraparound when
`start_hour > end_hour`, and a geo-scoped event modifier (with coordinates
present, as the applicator always writes them) additionally requires the
haversine distance from the station to the event to be within `radius_km`.
Active modifiers combine multiplicatively. -/
theorem C4_effective_rate (base_rate : ℝ) (time_multipliers : ℤ → Option ℝ)
    (scenario_multiplier : ℝ) (la lo : ℝ) (ws : List WeatherModifier)
    (es : List EventModifier) (t : ℝ)
    (hes : ∀ m ∈ es, m.scope = "geo" ∧ m.latitude.isSome ∧ m.longitude.isSome) :
    calculateRate base_rate time_multipliers scenario_multiplier
        (some la) (some lo) ws es t
      = base_rate * ((time_multipliers (hourOfTime t)).getD 1) * scenario_multiplier
        * (ws.map (fun m =>
            if specWindowActive (hourOfTime t) m.start_hour m.end_hour
              then m.multiplier else 1)).prod
        * (es.map (fun m =>
            if specEventActive la lo (hourOfTime t) m
                (m.latitude.getD 0) (m.longitude.getD 0)
              then m.multiplier else 1)).prod := by
  unfold calculateRate applyDemandModifiers
  rw [eventFoldl_eq_prod la lo _ es _ hes, weatherFoldl_eq_prod]
  ring

/-- C4 witness: the effective-rate theorem at a concrete input (no
modifiers, station at the origin, time zero). -/
theorem C4_effective_rate_witness :
    calculateRate 2 (fun _ => none) 3 (some 0) (some 0) [] [] 0
      = 2 * (((fun _ => none : ℤ → Option ℝ) (hourOfTime 0)).getD 1) * 3
        * (([] : List WeatherModifier).map (fun m =>
            if specWindowActive (hourOfTime 0) m.start_hour m.end_hour
              then m.multiplier else 1)).prod
        * (([] : List EventModifier).map (fun m =>
            if specEventActive 0 0 (hourOfTime 0) m
                (m.latitude.getD 0) (m.longitude.getD 0)
              then m.multiplier else 1)).prod :=
  C4_effective_rate 2 (fun _ => none) 3 0 0 [] [] 0 (by simp)

/-! ### Claim C5 — zero-rate safety -/

/-- The per-iteration gap computation of `DemandGenerator.generate_arrivals`
(demand.py lines 94-105), instrumented for division errors: the per-minute
rate is `current_rate / 60.0`; when it is positive the gap is drawn from an
exponential distribution with scale `1.0 / rate_per_minute` (a division that
would raise `ZeroDivisionError` exactly when the divisor is zero, which the
guard rules out); otherwise the gap is a fixed 60 minutes.  `scale_draw`
stands for `random_state.exponential`. -/
noncomputable def nextGapChecked (current_rate : ℝ) (scale_draw : ℝ → ℝ) :
    Except String ℝ :=
  if current_rate / 60 > 0 then
    if current_rate / 60 = 0 then Except.error "ZeroDivisionError"
    else Except.ok (scale_draw (1 / (current_rate / 60)))
  else Except.ok 60

/-- The `while True` loop state of `generate_arrivals`: current simulated
time and number of exponential draws consumed so far.  `draws k` is the k-th
exponential draw as a function of its scale argument; `rateAt` is
`_calculate_rate` as a function of the current time. -/
noncomputable def genState (rateAt : ℝ → ℝ) (draws : ℕ → ℝ → ℝ) : ℕ → ℝ × ℕ
  | 0 => (0, 0)
  | n + 1 =>
    let s := genState rateAt draws n
    if rateAt s.1 / 60 > 0 then
      (s.1 + draws s.2 (1 / (rateAt s.1 / 60)), s.2 + 1)
    else (s.1 + 60, s.2)

/-- Time of the n-th emitted arrival (0-indexed): the loop waits the gap and
then emits the arrival. -/
noncomputable def arrivalTime (rateAt : ℝ → ℝ) (draws : ℕ → ℝ → ℝ) (n : ℕ) : ℝ :=
  (genState rateAt draws (n + 1)).1

/-- C5: when the computed effective rate is zero the demand generator
performs no division (the instrumented gap computation returns `ok 60`,
never a division error) and waits a fixed 60-minute gap; consequently with a
rate that is identically zero (as with `base_rate = 0` for all tiers and
any multipliers) the arrivals occur exactly at `60, 120, 180, …` minutes,
so any simulated-hour window `[a, a + 60)` contains at most one arrival. -/
theorem C5_zero_rate_safety (rateAt : ℝ → ℝ) (draws : ℕ → ℝ → ℝ)
    (scale_draw : ℝ → ℝ) (h0 : ∀ t, rateAt t = 0) :
    (∀ t, nextGapChecked (rateAt t) scale_draw = Except.ok 60) ∧
    (∀ n : ℕ, arrivalTime rateAt draws n = 60 * ((n : ℝ) + 1)) ∧
    (∀ (a : ℝ) (m n : ℕ),
      a ≤ arrivalTime rateAt draws m → arrivalTime rateAt draws m < a + 60 →
      a ≤ arrivalTime rateAt draws n → arrivalTime rateAt draws n < a + 60 →
      m = n) := by
  have hstate : ∀ n : ℕ, genState rateAt draws n = (60 * (n : ℝ), 0) := by
    intro n
    induction n with
    | zero => simp [genState]
    | succ k ih =>
      rw [genState, ih]
      simp only [h0]
      norm_num
      ring
  have htimes : ∀ n : ℕ, arrivalTime rateAt draws n = 60 * ((n : ℝ) + 1) := by
    intro n
    rw [arrivalTime, hstate (n + 1)]
    push_cast
    ring
  refine ⟨?_, htimes, ?_⟩
  · intro t
    rw [nextGapChecked, h0 t]
    norm_num
  · intro a m n h1 h2 h3 h4
    rw [htimes m] at h1 h2
    rw [htimes n] at h3 h4
    have hmn : (m : ℝ) < (n : ℝ) + 1 := by linarith
    have hnm : (n : ℝ) < (m : ℝ) + 1 := by linarith
    have hmn2 : m < n + 1 := by exact_mod_cast hmn
    have hnm2 : n < m + 1 := by exact_mod_cast hnm
    omega

/-- C5 witness: the zero-rate safety theorem for the identically-zero rate
function. -/
theorem C5_zero_rate_safety_witness :
    (∀ t, nextGapChecked ((fun _ : ℝ => (0 : ℝ)) t) (fun s : ℝ => s)
        = Except.ok 60) ∧
    (∀ n : ℕ, arrivalTime (fun _ : ℝ => (0 : ℝ)) (fun (_ : ℕ) (s : ℝ) => s) n
        = 60 * ((n : ℝ) + 1)) ∧
    (∀ (a : ℝ) (m n : ℕ),
      a ≤ arrivalTime (fun _ : ℝ => (0 : ℝ)) (fun (_ : ℕ) (s : ℝ) => s) m →
      arrivalTime (fun _ : ℝ => (0 : ℝ)) (fun (_ : ℕ) (s : ℝ) => s) m < a + 60 →
      a ≤ arrivalTime (fun _ : ℝ => (0 : ℝ)) (fun (_ : ℕ) (s : ℝ) => s) n →
      arrivalTime (fun _ : ℝ => (0 : ℝ)) (fun (_ : ℕ) (s : ℝ) => s) n < a + 60 →
      m = n) :=
  C5_zero_rate_safety (fun _ => 0) (fun _ s => s) (fun s => s) (fun _ => rfl)

end ClassicalRate

/-! ## Scenario applicator (`src/scenarios/applicator.py`)

Scenario application mutates Python objects in place after taking a deep
copy of the baseline, so it is embedded over an explicit object heap:
objects are attribute maps addressed by natural numbers, and
`copy.deepcopy` allocates fresh addresses.  This makes the claims about
mutation, aliasing and `AttributeError`/`ValueError` behaviour expressible.

`DemandConfig` in `src/config/schema.py` has exactly the fields
`base_rates`, `time_multipliers`, `scenario_multiplier` — it has **no**
`weather_modifiers`/`event_modifiers` lists, although
`ScenarioApplicator._apply_weather_demand`/`_apply_event_demand` (and
`SimulationEngine._create_demand_generator`) dereference them.  The heap
model keeps objects as plain attribute maps, so this mismatch surfaces as
an `AttributeError`, exactly as in Python.

The delta is modelled with the fields `apply_scenario` reads
(`add_stations`, `remove_station_ids`, `modify_stations`,
`demand_multiplier`, `operations_override`, `weather_demand`,
`event_demand`, `replenishment_policies`), i.e. the shape
`api/services.py` constructs; `config/schema.py`'s `ScenarioConfig` also
lacks the last three fields, which is part of the same schema gap recorded
for claim C7. -/

/-- Python attribute/dict values (the value types that flow through
scenario application). -/
inductive PyVal where
  | int (n : ℤ)
  | float (q : ℚ)
  | str (s : String)
  | pynone
  | list (xs : List PyVal)
  | dict (entries : List (String × PyVal))

mutual

/-- Python `==` on the modelled values. -/
def pyValBEq : PyVal → PyVal → Bool
  | .int a, .int b => a == b
  | .float a, .float b => a == b
  | .str a, .str b => a == b
  | .pynone, .pynone => true
  | .list xs, .list ys => pyValListBEq xs ys
  | .dict xs, .dict ys => pyValDictBEq xs ys
  | _, _ => false

/-- Python `==` on lists of values. -/
def pyValListBEq : List PyVal → List PyVal → Bool
  | [], [] => true
  | x :: xs, y :: ys => pyValBEq x y && pyValListBEq xs ys
  | _, _ => false

/-- Python `==` on dicts (as ordered association lists). -/
def pyValDictBEq : List (String × PyVal) → List (String × PyVal) → Bool
  | [], [] => true
  | (k1, v1) :: xs, (k2, v2) :: ys => k1 == k2 && pyValBEq v1 v2 && pyValDictBEq xs ys
  | _, _ => false

end

/-- A Python object as a mutable attribute map (dataclass instances accept
dynamic attribute creation via `setattr`). -/
abbrev AttrMap : Type := List (String × PyVal)

/-- `hasattr(obj, a)`. -/
def hasattr (o : AttrMap) (a : String) : Bool :=
  o.any (fun p => p.1 = a)

/-- `getattr(obj, a)` as a partial read (`none` = would raise
`AttributeError`). -/
def getattrOpt (o : AttrMap) (a : String) : Option PyVal :=
  (o.find? (fun p => p.1 = a)).map (fun p => p.2)

/-- `setattr(obj, a, v)`: overwrite an existing attribute in place, or
create it. -/
def setattrMap (o : AttrMap) (a : String) (v : PyVal) : AttrMap :=
  if hasattr o a then o.map (fun p => if p.1 = a then (a, v) else p)
  else o ++ [(a, v)]

/-- `d.get(key, default)` on an intervention dict. -/
def dictGetD (d : List (String × PyVal)) (key : String) (dflt : PyVal) : PyVal :=
  ((d.find? (fun p => p.1 = key)).map (fun p => p.2)).getD dflt

/-- Python truthiness for the values scenario application tests with
`if x:`. -/
def pyTruthy : PyVal → Bool
  | .int n => decide (n ≠ 0)
  | .float q => decide (q ≠ 0)
  | .str s => decide (s ≠ "")
  | .pynone => false
  | .list xs => !xs.isEmpty
  | .dict d => !d.isEmpty

/-- Object heap; addresses are indices. -/
abbrev Heap : Type := List AttrMap

/-- Read an object (addresses are kept in range by construction). -/
def getObj (h : Heap) (r : ℕ) : AttrMap := h.getD r []

/-- Overwrite an object in place. -/
def setObj (h : Heap) (r : ℕ) (o : AttrMap) : Heap := h.set r o

/-- The parts of a `BaselineConfig` object that `apply_scenario` touches:
the station list (references), and the `demand` and `operations` objects.
The scalar fields (`simulation_duration`, `random_seed`, `duration_hours`)
are never read or written by `apply_scenario` and are omitted. -/
structure ConfigRef where
  stations : List ℕ
  demand : ℕ
  operations : ℕ
deriving DecidableEq

/-- The error kinds `apply_scenario` can raise: `ValueError` from
`_modify_stations` / `_apply_operations_override`, `AttributeError` from a
missing attribute. -/
inductive PyError where
  | valueError (msg : String)
  | attributeError (msg : String)
deriving DecidableEq

/-- A scenario delta with the fields `apply_scenario` reads.
`modify_stations` is the `{station_id: {attribute: value}}` map (insertion
ordered); the three intervention lists hold raw intervention dicts. -/
structure ScenarioDelta where
  add_stations : List AttrMap
  remove_station_ids : List String
  modify_stations : List (String × List (String × PyVal))
  demand_multiplier : Option PyVal
  operations_override : List (String × PyVal)
  weather_demand : List (List (String × PyVal))
  event_demand : List (List (String × PyVal))
  replenishment_policies : List (List (String × PyVal))

/-- The empty delta. -/
def ScenarioDelta.empty : ScenarioDelta :=
  ⟨[], [], [], none, [], [], [], []⟩

/-- `ConfigLoader.deep_copy_baseline` (`copy.deepcopy`): allocate fresh
copies of every object reachable from the baseline and return the new
references. -/
def deepCopyBaseline (h : Heap) (cfg : ConfigRef) : Heap × ConfigRef :=
  let n := cfg.stations.length
  (h ++ cfg.stations.map (fun r => getObj h r) ++ [getObj h cfg.demand, getObj h cfg.operations],
   ⟨(List.range n).map (fun i => h.length + i), h.length + n, h.length + n + 1⟩)

/-- Inner loop of `_modify_stations`: apply one station's attribute changes
one `setattr` at a time, raising `ValueError` at the first unknown
attribute (mutations before the failure persist, as in Python). -/
def applyChangesHeap (sid : String) :
    Heap → ℕ → List (String × PyVal) → Heap × Option PyError
  | h, _, [] => (h, none)
  | h, r, (attr, v) :: rest =>
      let o := getObj h r
      if hasattr o attr then
        applyChangesHeap sid (setObj h r (setattrMap o attr v)) r rest
      else
        (h, some (.valueError ("Station " ++ sid ++ " has no attribute " ++ attr)))

/-- `ScenarioApplicator._modify_stations` (applicator.py lines 78-93):
iterate the station list; a station whose `station_id` appears in the
override map gets each named attribute set, failing fast on an unknown
attribute.  Stations whose id is not in the map are skipped — including
when the map names ids not present in the list. -/
def modifyStations (mods : List (String × List (String × PyVal))) :
    Heap → List ℕ → Heap × Option PyError
  | h, [] => (h, none)
  | h, r :: rest =>
      match getattrOpt (getObj h r) "station_id" with
      | none => (h, some (.attributeError "station_id"))
      | some v =>
          match v with
          | .str sid =>
              match (mods.find? (fun p => p.1 = sid)).map (fun p => p.2) with
              | some changes =>
                  match applyChangesHeap sid h r changes with
                  | (h2, none) => modifyStations mods h2 rest
                  | (h2, some e) => (h2, some e)
              | none => modifyStations mods h rest
          | _ => modifyStations mods h rest

/-- `ScenarioApplicator._apply_operations_override` (applicator.py lines
95-102): set each named parameter, `ValueError` on an unknown one. -/
def applyOperationsOverride :
    Heap → ℕ → List (String × PyVal) → Heap × Option PyError
  | h, _, [] => (h, none)
  | h, r, (param, v) :: rest =>
      let o := getObj h r
      if hasattr o param then
        applyOperationsOverride (setObj h r (setattrMap o param v)) r rest
      else
        (h, some (.valueError ("Operations has no parameter " ++ param)))

/-- The weather-modifier dict built by `_apply_weather_demand` for one
intervention. -/
def weatherModifierDict (iv : List (String × PyVal)) : PyVal :=
  .dict [("scope", .str "global"),
         ("multiplier", dictGetD iv "multiplier" (.float 1)),
         ("start_hour", dictGetD iv "start_hour" (.int 0)),
         ("end_hour", dictGetD iv "end_hour" (.int 24))]

/-- The event-modifier dict built by `_apply_event_demand` for one
intervention. -/
def eventModifierDict (iv : List (String × PyVal)) : PyVal :=
  .dict [("scope", .str "geo"),
         ("latitude", dictGetD iv "latitude" .pynone),
         ("longitude", dictGetD iv "longitude" .pynone),
         ("radius_km", dictGetD iv "radius_km" (.float 5)),
         ("multiplier", dictGetD iv "multiplier" (.float 1)),
         ("start_hour", dictGetD iv "start_hour" (.int 0)),
         ("end_hour", dictGetD iv "end_hour" (.int 24))]

/-- `config.demand.<attr>.append(modifier)` for each intervention:
reading a missing attribute raises `AttributeError` (this is what happens
against the schema's `DemandConfig`, which has no modifier lists);
`.append` on a non-list value would also raise `AttributeError`. -/
def appendModifiers (h : Heap) (demandRef : ℕ) (attr : String)
    (modifiers : List PyVal) : Heap × Option PyError :=
  match getattrOpt (getObj h demandRef) attr with
  | none => (h, some (.attributeError attr))
  | some (.list xs) =>
      (setObj h demandRef (setattrMap (getObj h demandRef) attr (.list (xs ++ modifiers))),
       none)
  | some _ => (h, some (.attributeError "append"))

/-- One replenishment-policy intervention of
`_apply_replenishment_policies` (applicator.py lines 150-185): target one
station by id when `station_id` is truthy (first match only, then `break`),
else all stations; `setattr` here creates the
`replenishment_policy`/`replenishment_params` attributes. -/
def applyReplenishmentOne (policy : PyVal) (params : PyVal) (h : Heap)
    (r : ℕ) : Heap :=
  setObj h r (setattrMap (setattrMap (getObj h r) "replenishment_policy" policy)
    "replenishment_params" params)

/-- Apply one replenishment intervention to the station list. -/
def applyReplenishmentIntervention (stations : List ℕ) (h : Heap)
    (iv : List (String × PyVal)) : Heap :=
  let policy := dictGetD iv "policy" (.str "base_stock")
  let params := dictGetD iv "params" (.dict [])
  let sid := dictGetD iv "station_id" .pynone
  if pyTruthy sid then
    match stations.find? (fun r =>
        match getattrOpt (getObj h r) "station_id" with
        | some v => pyValBEq v sid
        | none => false) with
    | some r => applyReplenishmentOne policy params h r
    | none => h
  else
    stations.foldl (fun h2 r => applyReplenishmentOne policy params h2 r) h

/-- Station removal (applicator.py lines 31-35): keep the stations whose
`station_id` is not in the removal list.  The list comprehension reads
`s.station_id` of every station, so a missing attribute raises. -/
def filterStations (removeIds : List String) (h : Heap) :
    List ℕ → Except PyError (List ℕ)
  | [] => .ok []
  | r :: rest =>
      match getattrOpt (getObj h r) "station_id" with
      | none => .error (.attributeError "station_id")
      | some v =>
          let keep := match v with
            | .str s => decide (s ∉ removeIds)
            | _ => true
          match filterStations removeIds h rest with
          | .ok ks => .ok (if keep then r :: ks else ks)
          | .error e => .error e

/-- Heap and copied config after `deep_copy_baseline` (applicator.py line 24). -/
def heapAfterCopy (h : Heap) (b : ConfigRef) : Heap := (deepCopyBaseline h b).1

/-- The deep-copied configuration object references. -/
def copyCfg (h : Heap) (b : ConfigRef) : ConfigRef := (deepCopyBaseline h b).2

/-- Heap after appending the delta's (deep-copied) new stations (step 1;
an empty `add_stations` list appends nothing, matching the Python
truthiness guard). -/
def heapAfterAdd (h : Heap) (b : ConfigRef) (d : ScenarioDelta) : Heap :=
  heapAfterCopy h b ++ d.add_stations

/-- Station references after step 1. -/
def stationsAfterAdd (h : Heap) (b : ConfigRef) (d : ScenarioDelta) : List ℕ :=
  (copyCfg h b).stations
    ++ (List.range d.add_stations.length).map (fun i => (heapAfterCopy h b).length + i)

/-- Station references after step 2 (removals; skipped when the removal
list is empty, as in Python). -/
def stationsAfterRemove (h : Heap) (b : ConfigRef) (d : ScenarioDelta) :
    Except PyError (List ℕ) :=
  match d.remove_station_ids with
  | [] => .ok (stationsAfterAdd h b d)
  | _ :: _ =>
      filterStations d.remove_station_ids (heapAfterAdd h b d) (stationsAfterAdd h b d)

/-- The demand-multiplier step (step 4): overwrite (not compose) the demand
config's `scenario_multiplier` when the delta carries one. -/
def heapAfterMultiplier (h3 : Heap) (demandRef : ℕ) (dm : Option PyVal) : Heap :=
  match dm with
  | some v => setObj h3 demandRef (setattrMap (getObj h3 demandRef) "scenario_multiplier" v)
  | none => h3

/-- `ScenarioApplicator.apply_scenario` (applicator.py lines 13-76): deep
copy, then the eight steps in order, aborting at the first raised error.
The heap is returned in every case (Python objects survive an exception);
the `Except` value is the function result. -/
def applyScenario (h : Heap) (b : ConfigRef) (d : ScenarioDelta) :
    Heap × Except PyError ConfigRef :=
  match stationsAfterRemove h b d with
  | .error e => (heapAfterAdd h b d, .error e)
  | .ok stRefs =>
    match (match d.modify_stations with
           | [] => (heapAfterAdd h b d, none)
           | _ :: _ => modifyStations d.modify_stations (heapAfterAdd h b d) stRefs) with
    | (h3, some e) => (h3, .error e)
    | (h3, none) =>
      match applyOperationsOverride
          (heapAfterMultiplier h3 (copyCfg h b).demand d.demand_multiplier)
          (copyCfg h b).operations d.operations_override with
      | (h5, some e) => (h5, .error e)
      | (h5, none) =>
        match (match d.weather_demand with
               | [] => (h5, none)
               | _ :: _ => appendModifiers h5 (copyCfg h b).demand "weather_modifiers"
                   (d.weather_demand.map weatherModifierDict)) with
        | (h6, some e) => (h6, .error e)
        | (h6, none) =>
          match (match d.event_demand with
                 | [] => (h6, none)
                 | _ :: _ => appendModifiers h6 (copyCfg h b).demand "event_modifiers"
                     (d.event_demand.map eventModifierDict)) with
          | (h7, some e) => (h7, .error e)
          | (h7, none) =>
            (d.replenishment_policies.foldl (applyReplenishmentIntervention stRefs) h7,
             .ok { copyCfg h b with stations := stRefs })

/-! ### Heap access lemmas -/

lemma getObj_append_left (l1 l2 : Heap) (i : ℕ) (hi : i < l1.length) :
    getObj (l1 ++ l2) i = getObj l1 i := by
  unfold getObj
  exact List.getD_append l1 l2 [] i hi

lemma getObj_setObj_self (h : Heap) (r : ℕ) (o : AttrMap) (hr : r < h.length) :
    getObj (setObj h r o) r = o := by
  unfold getObj setObj
  rw [List.getD_eq_getElem?_getD, List.getElem?_set_eq_of_lt o hr]
  rfl

lemma getObj_setObj_ne (h : Heap) (r1 r2 : ℕ) (o : AttrMap) (hne : r1 ≠ r2) :
    getObj (setObj h r2 o) r1 = getObj h r1 := by
  unfold getObj setObj
  rw [List.getD_eq_getElem?_getD, List.getD_eq_getElem?_getD,
    List.getElem?_set_ne (fun he => hne he.symm)]

lemma getattrOpt_eq_none_iff (o : AttrMap) (a : String) :
    getattrOpt o a = none ↔ hasattr o a = false := by
  unfold getattrOpt hasattr
  rw [Option.map_eq_none']
  constructor
  · intro hf
    rw [List.find?_eq_none] at hf
    rw [Bool.eq_false_iff]
    intro hany
    obtain ⟨x, hx, hpx⟩ := List.any_eq_true.mp hany
    exact hf x hx hpx
  · intro hfa
    rw [List.find?_eq_none]
    intro x hx hpx
    rw [Bool.eq_false_iff] at hfa
    exact hfa (List.any_eq_true.mpr ⟨x, hx, hpx⟩)

lemma hasattr_setattrMap_other (o : AttrMap) (a1 a2 : String) (v : PyVal)
    (hne : a1 ≠ a2) : hasattr (setattrMap o a2 v) a1 = hasattr o a1 := by
  unfold setattrMap
  by_cases hcase : hasattr o a2 = true
  · rw [if_pos hcase]
    unfold hasattr
    rw [List.any_map]
    apply Bool.eq_iff_iff.mpr
    rw [List.any_eq_true, List.any_eq_true]
    constructor
    · rintro ⟨p, hp, hmatch⟩
      refine ⟨p, hp, ?_⟩
      simp only [Function.comp_apply] at hmatch
      by_cases hpa : p.1 = a2
      · rw [if_pos hpa] at hmatch
        simp only [decide_eq_true_eq] at hmatch
        exact absurd hmatch.symm hne
      · rwa [if_neg hpa] at hmatch
    · rintro ⟨p, hp, hmatch⟩
      refine ⟨p, hp, ?_⟩
      simp only [Function.comp_apply]
      have hpa : ¬ p.1 = a2 := by
        intro hpa
        rw [decide_eq_true_eq] at hmatch
        exact hne (hmatch ▸ hpa)
      rw [if_neg hpa]
      exact hmatch
  · rw [if_neg hcase]
    unfold hasattr
    rw [List.any_append]
    have hsingle : List.any [(a2, v)] (fun p => decide (p.1 = a1)) = false := by
      simp only [List.any_cons, List.any_nil, Bool.or_false, decide_eq_false_iff_not]
      exact fun he => hne he.symm
    rw [hsingle, Bool.or_false]

/-- The demand object of the deep copy is (a copy of) the baseline's demand
object. -/
lemma getObj_copy_demand (h : Heap) (b : ConfigRef) :
    getObj (heapAfterCopy h b) (copyCfg h b).demand = getObj h b.demand := by
  unfold heapAfterCopy copyCfg deepCopyBaseline
  simp only
  rw [show h.length + b.stations.length
      = (h ++ b.stations.map (fun r => getObj h r)).length by simp]
  unfold getObj
  rw [List.getD_append_right _ _ _ _ (le_refl _), Nat.sub_self]
  rfl

lemma copyCfg_demand_lt (h : Heap) (b : ConfigRef) :
    (copyCfg h b).demand < (heapAfterCopy h b).length := by
  unfold copyCfg heapAfterCopy deepCopyBaseline
  simp

/-! ### Claim C7 — weather/event modifier appends hit the schema gap -/

/-- C7: `DemandConfig` (config/schema.py lines 32-52) has no
`weather_modifiers`/`event_modifiers` fields, so for any delta that carries
a weather (resp. event) demand intervention, `apply_scenario` raises
`AttributeError` at `config.demand.weather_modifiers.append(...)` (resp.
`event_modifiers`) instead of appending the modifier and returning the
modified configuration.  Stated for deltas whose earlier steps do not
themselves raise (no removals, station modifications or operational
overrides). -/
theorem C7_demand_schema_gap (h : Heap) (b : ConfigRef)
    (adds : List AttrMap) (dm : Option PyVal)
    (ws es rp : List (List (String × PyVal)))
    (hw_attr : hasattr (getObj h b.demand) "weather_modifiers" = false)
    (he_attr : hasattr (getObj h b.demand) "event_modifiers" = false) :
    (ws ≠ [] →
      (applyScenario h b ⟨adds, [], [], dm, [], ws, es, rp⟩).2
        = Except.error (.attributeError "weather_modifiers")) ∧
    (ws = [] → es ≠ [] →
      (applyScenario h b ⟨adds, [], [], dm, [], ws, es, rp⟩).2
        = Except.error (.attributeError "event_modifiers")) := by
  have hbase : getObj (heapAfterCopy h b ++ adds) (copyCfg h b).demand
      = getObj h b.demand := by
    rw [getObj_append_left _ _ _ (copyCfg_demand_lt h b), getObj_copy_demand]
  have hltA : (copyCfg h b).demand < (heapAfterCopy h b ++ adds).length := by
    rw [List.length_append]
    exact lt_of_lt_of_le (copyCfg_demand_lt h b) (Nat.le_add_right _ _)
  have hnone : ∀ attr : String, hasattr (getObj h b.demand) attr = false →
      getattrOpt (getObj (heapAfterCopy h b ++ adds) (copyCfg h b).demand) attr
        = none := by
    intro attr hattr
    rw [getattrOpt_eq_none_iff, hbase]
    exact hattr
  have hnoneSet : ∀ (attr : String) (v : PyVal), attr ≠ "scenario_multiplier" →
      hasattr (getObj h b.demand) attr = false →
      getattrOpt (getObj
        (setObj (heapAfterCopy h b ++ adds) (copyCfg h b).demand
          (setattrMap (getObj (heapAfterCopy h b ++ adds) (copyCfg h b).demand)
            "scenario_multiplier" v))
        (copyCfg h b).demand) attr = none := by
    intro attr v hne hattr
    rw [getattrOpt_eq_none_iff, getObj_setObj_self _ _ _ hltA,
      hasattr_setattrMap_other _ _ _ _ hne, hbase]
    exact hattr
  constructor
  · intro hw
    cases ws with
    | nil => exact absurd rfl hw
    | cons w wrest =>
      cases dm with
      | none =>
        simp only [applyScenario, stationsAfterRemove, heapAfterAdd,
          heapAfterMultiplier, applyOperationsOverride, appendModifiers,
          hnone "weather_modifiers" hw_attr]
      | some v =>
        simp only [applyScenario, stationsAfterRemove, heapAfterAdd,
          heapAfterMultiplier, applyOperationsOverride, appendModifiers,
          hnoneSet "weather_modifiers" v (by decide) hw_attr]
  · intro hwnil he
    subst hwnil
    cases es with
    | nil => exact absurd rfl he
    | cons e erest =>
      cases dm with
      | none =>
        simp only [applyScenario, stationsAfterRemove, heapAfterAdd,
          heapAfterMultiplier, applyOperationsOverride, appendModifiers,
          hnone "event_modifiers" he_attr]
      | some v =>
        simp only [applyScenario, stationsAfterRemove, heapAfterAdd,
          heapAfterMultiplier, applyOperationsOverride, appendModifiers,
          hnoneSet "event_modifiers" v (by decide) he_attr]

/-! ### Claim C2 — scenario purity (baseline never mutated) -/

/-- The deep value of a baseline configuration: its station objects in
order, its demand object and its operations object. -/
def readBaseline (h : Heap) (b : ConfigRef) : List AttrMap × AttrMap × AttrMap :=
  (b.stations.map (fun r => getObj h r), getObj h b.demand, getObj h b.operations)

/-- `h1` extends `h0` without touching any of `h0`'s objects. -/
def GrowsFrom (h0 h1 : Heap) : Prop :=
  h0.length ≤ h1.length ∧ ∀ i, i < h0.length → getObj h1 i = getObj h0 i

lemma growsFrom_refl (h0 : Heap) : GrowsFrom h0 h0 :=
  ⟨le_refl _, fun _ _ => rfl⟩

lemma growsFrom_trans {h0 h1 h2 : Heap} (g1 : GrowsFrom h0 h1)
    (g2 : GrowsFrom h1 h2) : GrowsFrom h0 h2 :=
  ⟨le_trans g1.1 g2.1,
   fun i hi => by rw [g2.2 i (lt_of_lt_of_le hi g1.1), g1.2 i hi]⟩

lemma growsFrom_append (h0 : Heap) (l : Heap) : GrowsFrom h0 (h0 ++ l) :=
  ⟨by simp, fun i hi => getObj_append_left h0 l i hi⟩

lemma growsFrom_setObj {h0 h1 : Heap} (g : GrowsFrom h0 h1) (r : ℕ)
    (o : AttrMap) (hr : h0.length ≤ r) : GrowsFrom h0 (setObj h1 r o) :=
  ⟨by rw [show (setObj h1 r o).length = h1.length from List.length_set h1 r o]
      exact g.1,
   fun i hi => by
    rw [getObj_setObj_ne h1 i r o (by omega), g.2 i hi]⟩

lemma growsFrom_applyChangesHeap (sid : String) (h0 : Heap) (r : ℕ)
    (changes : List (String × PyVal)) :
    ∀ h1 : Heap, GrowsFrom h0 h1 → h0.length ≤ r →
      GrowsFrom h0 (applyChangesHeap sid h1 r changes).1 := by
  induction changes with
  | nil => intro h1 hg _; exact hg
  | cons c rest ih =>
    intro h1 hg hr
    rw [applyChangesHeap]
    split
    · exact ih _ (growsFrom_setObj hg _ _ hr) hr
    · exact hg

lemma growsFrom_modifyStations (mods : List (String × List (String × PyVal)))
    (h0 : Heap) (refs : List ℕ) :
    ∀ h1 : Heap, GrowsFrom h0 h1 → (∀ r ∈ refs, h0.length ≤ r) →
      GrowsFrom h0 (modifyStations mods h1 refs).1 := by
  induction refs with
  | nil => intro h1 hg _; exact hg
  | cons r rest ih =>
    intro h1 hg hrefs
    have hr : h0.length ≤ r := hrefs r (List.mem_cons_self r rest)
    have hrest : ∀ r2 ∈ rest, h0.length ≤ r2 :=
      fun r2 hr2 => hrefs r2 (List.mem_cons_of_mem r hr2)
    rw [modifyStations]
    split
    · exact hg
    · rename_i v hv
      split
      · rename_i sid
        split
        · rename_i changes hfind
          split
          · rename_i h2 hac
            refine ih h2 ?_ hrest
            have hgc := growsFrom_applyChangesHeap sid h0 r changes h1 hg hr
            rw [hac] at hgc
            exact hgc
          · rename_i h2 e hac
            have hgc := growsFrom_applyChangesHeap sid h0 r changes h1 hg hr
            rw [hac] at hgc
            exact hgc
        · exact ih h1 hg hrest
      · exact ih h1 hg hrest

lemma growsFrom_applyOperationsOverride (h0 : Heap) (r : ℕ)
    (overrides : List (String × PyVal)) :
    ∀ h1 : Heap, GrowsFrom h0 h1 → h0.length ≤ r →
      GrowsFrom h0 (applyOperationsOverride h1 r overrides).1 := by
  induction overrides with
  | nil => intro h1 hg _; exact hg
  | cons c rest ih =>
    intro h1 hg hr
    rw [applyOperationsOverride]
    split
    · exact ih _ (growsFrom_setObj hg _ _ hr) hr
    · exact hg

lemma growsFrom_appendModifiers (h0 h1 : Heap) (r : ℕ) (attr : String)
    (modifiers : List PyVal) (hg : GrowsFrom h0 h1) (hr : h0.length ≤ r) :
    GrowsFrom h0 (appendModifiers h1 r attr modifiers).1 := by
  rw [appendModifiers]
  split
  · exact hg
  · exact growsFrom_setObj hg _ _ hr
  · exact hg

lemma growsFrom_foldl_replenishmentOne (h0 : Heap) (policy params : PyVal)
    (stations : List ℕ) :
    ∀ h1 : Heap, GrowsFrom h0 h1 → (∀ r ∈ stations, h0.length ≤ r) →
      GrowsFrom h0
        (stations.foldl (fun h2 r => applyReplenishmentOne policy params h2 r) h1) := by
  induction stations with
  | nil => intro h1 hg _; exact hg
  | cons r rest ih =>
    intro h1 hg hrefs
    rw [List.foldl_cons]
    refine ih _ ?_ (fun r2 hr2 => hrefs r2 (List.mem_cons_of_mem r hr2))
    unfold applyReplenishmentOne
    exact growsFrom_setObj hg _ _ (hrefs r (List.mem_cons_self r rest))

lemma growsFrom_applyReplenishmentIntervention (h0 : Heap) (stations : List ℕ)
    (iv : List (String × PyVal)) (h1 : Heap) (hg : GrowsFrom h0 h1)
    (hrefs : ∀ r ∈ stations, h0.length ≤ r) :
    GrowsFrom h0 (applyReplenishmentIntervention stations h1 iv) := by
  rw [applyReplenishmentIntervention]
  split
  · split
    · rename_i r hfind
      unfold applyReplenishmentOne
      exact growsFrom_setObj hg _ _ (hrefs r (List.mem_of_find?_eq_some hfind))
    · exact hg
  · exact growsFrom_foldl_replenishmentOne h0 _ _ stations h1 hg hrefs

lemma growsFrom_foldl_replenishmentInterventions (h0 : Heap) (stRefs : List ℕ)
    (ivs : List (List (String × PyVal))) :
    ∀ h1 : Heap, GrowsFrom h0 h1 → (∀ r ∈ stRefs, h0.length ≤ r) →
      GrowsFrom h0 (ivs.foldl (applyReplenishmentIntervention stRefs) h1) := by
  induction ivs with
  | nil => intro h1 hg _; exact hg
  | cons iv rest ih =>
    intro h1 hg hrefs
    rw [List.foldl_cons]
    exact ih _ (growsFrom_applyReplenishmentIntervention h0 stRefs iv h1 hg hrefs) hrefs

lemma mem_of_filterStations (removeIds : List String) (h : Heap) :
    ∀ (refs res : List ℕ), filterStations removeIds h refs = .ok res →
      ∀ r ∈ res, r ∈ refs := by
  intro refs
  induction refs with
  | nil =>
    intro res hres r hr
    rw [filterStations] at hres
    cases hres
    cases hr
  | cons r0 rest ih =>
    intro res hres r hr
    rw [filterStations] at hres
    cases hv : getattrOpt (getObj h r0) "station_id" with
    | none =>
      rw [hv] at hres
      cases hres
    | some v =>
      rw [hv] at hres
      simp only at hres
      cases hrec : filterStations removeIds h rest with
      | error e =>
        rw [hrec] at hres
        cases hres
      | ok ks =>
        rw [hrec] at hres
        cases hres
        revert hr
        split
        · intro hr
          rcases List.mem_cons.mp hr with hr0 | hrk
          · exact hr0 ▸ List.mem_cons_self r0 rest
          · exact List.mem_cons_of_mem r0 (ih ks hrec r hrk)
        · intro hr
          exact List.mem_cons_of_mem r0 (ih ks hrec r hr)

lemma stationsAfterAdd_ge (h : Heap) (b : ConfigRef) (d : ScenarioDelta) :
    ∀ r ∈ stationsAfterAdd h b d, h.length ≤ r := by
  intro r hr
  unfold stationsAfterAdd copyCfg deepCopyBaseline at hr
  simp only [List.mem_append, List.mem_map, List.mem_range] at hr
  rcases hr with ⟨i, _, hi⟩ | ⟨i, _, hi⟩
  · omega
  · unfold heapAfterCopy deepCopyBaseline at hi
    simp only [List.length_append, List.length_map, List.length_cons,
      List.length_nil] at hi
    omega

lemma stationsAfterRemove_ge (h : Heap) (b : ConfigRef) (d : ScenarioDelta)
    (stRefs : List ℕ) (hok : stationsAfterRemove h b d = .ok stRefs) :
    ∀ r ∈ stRefs, h.length ≤ r := by
  intro r hr
  unfold stationsAfterRemove at hok
  revert hok
  split
  · intro hok
    cases hok
    exact stationsAfterAdd_ge h b d r hr
  · intro hok
    exact stationsAfterAdd_ge h b d r
      (mem_of_filterStations _ _ _ _ hok r hr)

lemma copyCfg_demand_ge (h : Heap) (b : ConfigRef) :
    h.length ≤ (copyCfg h b).demand := by
  unfold copyCfg deepCopyBaseline
  simp only
  omega

lemma copyCfg_operations_ge (h : Heap) (b : ConfigRef) :
    h.length ≤ (copyCfg h b).operations := by
  unfold copyCfg deepCopyBaseline
  simp only
  omega

lemma growsFrom_heapAfterAdd (h : Heap) (b : ConfigRef) (d : ScenarioDelta) :
    GrowsFrom h (heapAfterAdd h b d) := by
  unfold heapAfterAdd heapAfterCopy deepCopyBaseline
  simp only
  exact growsFrom_trans
    (growsFrom_trans (growsFrom_append h _) (growsFrom_append _ _))
    (growsFrom_append _ _)

/-- C2: `apply_scenario` leaves the baseline deeply unchanged — its station
objects, demand object and operations object read back identically after
the call, whether the application succeeds or raises, for every delta
(including ones that add, remove or modify stations).  The hypotheses say
the baseline's references are valid heap addresses. -/
theorem C2_scenario_purity (h : Heap) (b : ConfigRef) (d : ScenarioDelta)
    (hst : ∀ r ∈ b.stations, r < h.length)
    (hd : b.demand < h.length) (ho : b.operations < h.length) :
    readBaseline (applyScenario h b d).1 b = readBaseline h b := by
  suffices hg : GrowsFrom h (applyScenario h b d).1 by
    unfold readBaseline
    refine congrArg₂ Prod.mk ?_ (congrArg₂ Prod.mk ?_ ?_)
    · exact List.map_congr_left (fun r hr => hg.2 r (hst r hr))
    · exact hg.2 b.demand hd
    · exact hg.2 b.operations ho
  have hadd := growsFrom_heapAfterAdd h b d
  unfold applyScenario
  split
  · exact hadd
  · rename_i stRefs hrem
    have hge := stationsAfterRemove_ge h b d stRefs hrem
    have hmodGrows : ∀ (h3 : Heap) (oe : Option PyError),
        (match d.modify_stations with
         | [] => (heapAfterAdd h b d, none)
         | _ :: _ => modifyStations d.modify_stations (heapAfterAdd h b d) stRefs)
          = (h3, oe) → GrowsFrom h h3 := by
      intro h3 oe hm
      revert hm
      split
      · intro hm
        cases hm
        exact hadd
      · intro hm
        have := growsFrom_modifyStations d.modify_stations h stRefs
          (heapAfterAdd h b d) hadd hge
        rw [hm] at this
        exact this
    split
    · rename_i h3 e hm
      exact hmodGrows h3 (some e) hm
    · rename_i h3 hm
      have hg3 : GrowsFrom h h3 := hmodGrows h3 none hm
      have hg4 : GrowsFrom h
          (heapAfterMultiplier h3 (copyCfg h b).demand d.demand_multiplier) := by
        unfold heapAfterMultiplier
        cases d.demand_multiplier with
        | some v => exact growsFrom_setObj hg3 _ _ (copyCfg_demand_ge h b)
        | none => exact hg3
      have hg5all := growsFrom_applyOperationsOverride h (copyCfg h b).operations
        d.operations_override _ hg4 (copyCfg_operations_ge h b)
      split
      · rename_i h5 e hops
        rw [hops] at hg5all
        exact hg5all
      · rename_i h5 hops
        rw [hops] at hg5all
        have hg6all : ∀ (h6 : Heap) (oe : Option PyError),
            (match d.weather_demand with
             | [] => (h5, none)
             | _ :: _ => appendModifiers h5 (copyCfg h b).demand "weather_modifiers"
                 (d.weather_demand.map weatherModifierDict)) = (h6, oe) →
            GrowsFrom h h6 := by
          intro h6 oe hw
          revert hw
          split
          · intro hw; cases hw; exact hg5all
          · intro hw
            have := growsFrom_appendModifiers h h5 (copyCfg h b).demand
              "weather_modifiers" (d.weather_demand.map weatherModifierDict)
              hg5all (copyCfg_demand_ge h b)
            rw [hw] at this
            exact this
        split
        · rename_i h6 e hw
          exact hg6all h6 (some e) hw
        · rename_i h6 hw
          have hg6 : GrowsFrom h h6 := hg6all h6 none hw
          have hg7all : ∀ (h7 : Heap) (oe : Option PyError),
              (match d.event_demand with
               | [] => (h6, none)
               | _ :: _ => appendModifiers h6 (copyCfg h b).demand "event_modifiers"
                   (d.event_demand.map eventModifierDict)) = (h7, oe) →
              GrowsFrom h h7 := by
            intro h7 oe hev
            revert hev
            split
            · intro hev; cases hev; exact hg6
            · intro hev
              have := growsFrom_appendModifiers h h6 (copyCfg h b).demand
                "event_modifiers" (d.event_demand.map eventModifierDict)
                hg6 (copyCfg_demand_ge h b)
              rw [hev] at this
              exact this
          split
          · rename_i h7 e hev
            exact hg7all h7 (some e) hev
          · rename_i h7 hev
            exact growsFrom_foldl_replenishmentInterventions h stRefs
              d.replenishment_policies h7 (hg7all h7 none hev) hge

/-! ### Claim C6 — unknown attribute / parameter handling -/

lemma hasattr_setattrMap_existing (o : AttrMap) (a : String) (v : PyVal)
    (ha : hasattr o a = true) (a2 : String) :
    hasattr (setattrMap o a v) a2 = hasattr o a2 := by
  by_cases ha2 : a2 = a
  · subst ha2
    rw [ha]
    unfold setattrMap
    rw [if_pos ha]
    unfold hasattr at ha ⊢
    rw [List.any_map]
    obtain ⟨p, hp, hpa⟩ := List.any_eq_true.mp ha
    apply List.any_eq_true.mpr
    refine ⟨p, hp, ?_⟩
    simp only [Function.comp_apply]
    rw [if_pos (by simpa using hpa)]
    simp
  · exact hasattr_setattrMap_other o a2 a v ha2

lemma getObj_setObj_length (h : Heap) (r : ℕ) (o : AttrMap) :
    (setObj h r o).length = h.length := List.length_set h r o

lemma getObj_setObj_self_of_lt {h : Heap} {r : ℕ} (o : AttrMap)
    (hr : r < h.length) : getObj (setObj h r o) r = o :=
  getObj_setObj_self h r o hr

/-- `applyChangesHeap` only writes at `r`, keeps the heap length, keeps the
attribute key set of the object at `r`, and its only error is a
`ValueError`; an unknown attribute among the changes forces that error. -/
lemma applyChangesHeap_facts (sid : String) (changes : List (String × PyVal)) :
    ∀ (h : Heap) (r : ℕ), r < h.length →
      ((applyChangesHeap sid h r changes).1.length = h.length ∧
       (∀ q, q ≠ r → getObj (applyChangesHeap sid h r changes).1 q = getObj h q) ∧
       (∀ a, hasattr (getObj (applyChangesHeap sid h r changes).1 r) a
          = hasattr (getObj h r) a) ∧
       ((applyChangesHeap sid h r changes).2 = none ∨
         ∃ msg, (applyChangesHeap sid h r changes).2 = some (.valueError msg)) ∧
       ((∃ p ∈ changes, hasattr (getObj h r) p.1 = false) →
         ∃ msg, (applyChangesHeap sid h r changes).2 = some (.valueError msg))) := by
  induction changes with
  | nil =>
    intro h r hr
    refine ⟨rfl, fun q _ => rfl, fun a => rfl, Or.inl rfl, ?_⟩
    rintro ⟨p, hp, _⟩
    cases hp
  | cons c rest ih =>
    intro h r hr
    rw [applyChangesHeap]
    by_cases hc : hasattr (getObj h r) c.1 = true
    · rw [if_pos hc]
      have hr2 : r < (setObj h r (setattrMap (getObj h r) c.1 c.2)).length := by
        rw [getObj_setObj_length]
        exact hr
      obtain ⟨ihlen, ihne, ihkeys, ihkind, iherr⟩ := ih
        (setObj h r (setattrMap (getObj h r) c.1 c.2)) r hr2
      have hobj : getObj (setObj h r (setattrMap (getObj h r) c.1 c.2)) r
          = setattrMap (getObj h r) c.1 c.2 :=
        getObj_setObj_self_of_lt _ hr
      refine ⟨by rw [ihlen, getObj_setObj_length], ?_, ?_, ihkind, ?_⟩
      · intro q hq
        rw [ihne q hq, getObj_setObj_ne _ _ _ _ hq]
      · intro a
        rw [ihkeys a, hobj, hasattr_setattrMap_existing _ _ _ hc]
      · rintro ⟨p, hp, hpfalse⟩
        rcases List.mem_cons.mp hp with hp0 | hprest
        · rw [hp0] at hpfalse
          rw [hpfalse] at hc
          cases hc
        · refine iherr ⟨p, hprest, ?_⟩
          rw [hobj, hasattr_setattrMap_existing _ _ _ hc]
          exact hpfalse
    · rw [if_neg hc]
      refine ⟨rfl, fun q _ => rfl, fun a => rfl, Or.inr ⟨_, rfl⟩, fun _ => ⟨_, rfl⟩⟩

/-- `_modify_stations` over a duplicate-free list of valid station
addresses, all carrying a `station_id` attribute: it never touches other
addresses, raises only `ValueError`, and an unknown attribute for a station
present in the list (by id) forces that error. -/
lemma modifyStations_facts (mods : List (String × List (String × PyVal))) :
    ∀ (refs : List ℕ) (h : Heap),
      refs.Nodup → (∀ r ∈ refs, r < h.length) →
      (∀ r ∈ refs, hasattr (getObj h r) "station_id" = true) →
      ((modifyStations mods h refs).1.length = h.length ∧
       (∀ q, q ∉ refs → getObj (modifyStations mods h refs).1 q = getObj h q) ∧
       ((modifyStations mods h refs).2 = none ∨
         ∃ msg, (modifyStations mods h refs).2 = some (.valueError msg)) ∧
       ((∃ r ∈ refs, ∃ sid changes,
           getattrOpt (getObj h r) "station_id" = some (.str sid) ∧
           (mods.find? (fun p => p.1 = sid)).map (fun p => p.2) = some changes ∧
           ∃ p ∈ changes, hasattr (getObj h r) p.1 = false) →
         ∃ msg, (modifyStations mods h refs).2 = some (.valueError msg))) := by
  intro refs
  induction refs with
  | nil =>
    intro h _ _ _
    refine ⟨rfl, fun q _ => rfl, Or.inl rfl, ?_⟩
    rintro ⟨r, hr, _⟩
    cases hr
  | cons r0 rest ih =>
    intro h hnd hlt hid
    have hr0lt : r0 < h.length := hlt r0 (List.mem_cons_self r0 rest)
    have hid0 : hasattr (getObj h r0) "station_id" = true :=
      hid r0 (List.mem_cons_self r0 rest)
    have hr0rest : r0 ∉ rest := (List.nodup_cons.mp hnd).1
    have hndrest : rest.Nodup := (List.nodup_cons.mp hnd).2
    rw [modifyStations]
    cases hv : getattrOpt (getObj h r0) "station_id" with
    | none =>
      rw [getattrOpt_eq_none_iff] at hv
      rw [hid0] at hv
      cases hv
    | some v =>
      cases v
      case str sid =>
        dsimp only
        cases hfind : (mods.find? (fun p => p.1 = sid)).map (fun p => p.2) with
        | none =>
          dsimp only
          obtain ⟨ihlen, ihne, ihkind, iherr⟩ := ih h hndrest
            (fun r hr => hlt r (List.mem_cons_of_mem r0 hr))
            (fun r hr => hid r (List.mem_cons_of_mem r0 hr))
          refine ⟨ihlen, ?_, ihkind, ?_⟩
          · intro q hq
            exact ihne q (fun hmem => hq (List.mem_cons_of_mem r0 hmem))
          · rintro ⟨r, hr, sid2, changes, hgid, hfind2, hbadp⟩
            rcases List.mem_cons.mp hr with hreq | hrrest
            · subst hreq
              rw [hv] at hgid
              cases hgid
              rw [hfind] at hfind2
              cases hfind2
            · exact iherr ⟨r, hrrest, sid2, changes, hgid, hfind2, hbadp⟩
        | some changes =>
          dsimp only
          obtain ⟨aclen, acne, ackeys, ackind, acerr⟩ :=
            applyChangesHeap_facts sid changes h r0 hr0lt
          cases hac : applyChangesHeap sid h r0 changes with
          | mk h2 oe =>
            rw [hac] at aclen acne ackeys ackind acerr
            cases oe with
            | none =>
              dsimp only
              have hlt2 : ∀ r ∈ rest, r < h2.length := by
                intro r hr
                rw [aclen]
                exact hlt r (List.mem_cons_of_mem r0 hr)
              have hid2 : ∀ r ∈ rest, hasattr (getObj h2 r) "station_id" = true := by
                intro r hr
                rw [acne r (fun he => hr0rest (he ▸ hr))]
                exact hid r (List.mem_cons_of_mem r0 hr)
              obtain ⟨ihlen, ihne, ihkind, iherr⟩ := ih h2 hndrest hlt2 hid2
              refine ⟨by rw [ihlen, aclen], ?_, ihkind, ?_⟩
              · intro q hq
                rw [ihne q (fun hmem => hq (List.mem_cons_of_mem r0 hmem)),
                  acne q (fun he => hq (he ▸ List.mem_cons_self r0 rest))]
              · rintro ⟨r, hr, sid2, changes2, hgid, hfind2, p, hp, hpfalse⟩
                rcases List.mem_cons.mp hr with hreq | hrrest
                · subst hreq
                  rw [hv] at hgid
                  cases hgid
                  rw [hfind] at hfind2
                  cases hfind2
                  exact absurd (acerr ⟨p, hp, hpfalse⟩)
                    (by rintro ⟨msg, hmsg⟩; cases hmsg)
                · refine iherr ⟨r, hrrest, sid2, changes2, ?_, hfind2, p, hp, ?_⟩
                  · rw [acne r (fun he => hr0rest (he ▸ hrrest))]
                    exact hgid
                  · rw [acne r (fun he => hr0rest (he ▸ hrrest))]
                    exact hpfalse
            | some e =>
              dsimp only
              rcases ackind with hnone | ⟨msg, hmsg⟩
              · cases hnone
              · cases hmsg
                refine ⟨aclen, ?_, Or.inr ⟨msg, rfl⟩, fun _ => ⟨msg, rfl⟩⟩
                intro q hq
                exact acne q (fun he => hq (he ▸ List.mem_cons_self r0 rest))
      all_goals {
        dsimp only
        obtain ⟨ihlen, ihne, ihkind, iherr⟩ := ih h hndrest
          (fun r hr => hlt r (List.mem_cons_of_mem r0 hr))
          (fun r hr => hid r (List.mem_cons_of_mem r0 hr))
        refine ⟨ihlen, ?_, ihkind, ?_⟩
        · intro q hq
          exact ihne q (fun hmem => hq (List.mem_cons_of_mem r0 hmem))
        · rintro ⟨r, hr, sid2, changes, hgid, hfind2, hbadp⟩
          rcases List.mem_cons.mp hr with hreq | hrrest
          · subst hreq
            rw [hv] at hgid
            cases hgid
          · exact iherr ⟨r, hrrest, sid2, changes, hgid, hfind2, hbadp⟩
      }

lemma heapAfterCopy_length (h : Heap) (b : ConfigRef) :
    (heapAfterCopy h b).length = h.length + b.stations.length + 2 := by
  unfold heapAfterCopy deepCopyBaseline
  simp
  omega

lemma heapAfterAdd_length (h : Heap) (b : ConfigRef) (d : ScenarioDelta) :
    (heapAfterAdd h b d).length
      = h.length + b.stations.length + 2 + d.add_stations.length := by
  unfold heapAfterAdd
  rw [List.length_append, heapAfterCopy_length]

lemma copyCfg_demand_eq (h : Heap) (b : ConfigRef) :
    (copyCfg h b).demand = h.length + b.stations.length := rfl

lemma copyCfg_operations_eq (h : Heap) (b : ConfigRef) :
    (copyCfg h b).operations = h.length + b.stations.length + 1 := rfl

/-- The operations object of the deep copy is (a copy of) the baseline's
operations object. -/
lemma getObj_copy_operations (h : Heap) (b : ConfigRef) :
    getObj (heapAfterCopy h b) (copyCfg h b).operations = getObj h b.operations := by
  unfold heapAfterCopy copyCfg deepCopyBaseline
  simp only
  rw [show h.length + b.stations.length + 1
      = (h ++ b.stations.map (fun r => getObj h r)).length + 1 by simp]
  unfold getObj
  rw [List.getD_append_right _ _ _ _ (by omega)]
  simp

lemma stationsAfterAdd_bounds (h : Heap) (b : ConfigRef) (d : ScenarioDelta) :
    ∀ r ∈ stationsAfterAdd h b d,
      (r < h.length + b.stations.length ∨
        h.length + b.stations.length + 2 ≤ r) ∧
      r < (heapAfterAdd h b d).length := by
  intro r hr
  rw [heapAfterAdd_length]
  unfold stationsAfterAdd copyCfg deepCopyBaseline at hr
  simp only [List.mem_append, List.mem_map, List.mem_range] at hr
  rw [heapAfterCopy_length] at hr
  rcases hr with ⟨i, hi, hieq⟩ | ⟨i, hi, hieq⟩ <;> omega

lemma stationsAfterAdd_nodup (h : Heap) (b : ConfigRef) (d : ScenarioDelta) :
    (stationsAfterAdd h b d).Nodup := by
  unfold stationsAfterAdd copyCfg deepCopyBaseline
  simp only
  rw [List.nodup_append]
  refine ⟨?_, ?_, ?_⟩
  · exact (List.nodup_range _).map (fun i j hij => by omega)
  · exact (List.nodup_range _).map (fun i j hij => by omega)
  · intro x hx hy
    simp only [List.mem_map, List.mem_range] at hx hy
    obtain ⟨i, hi, hieq⟩ := hx
    obtain ⟨j, hj, hjeq⟩ := hy
    rw [heapAfterCopy_length] at hjeq
    omega

/-- `_apply_operations_override` raises a `ValueError` as soon as an
override names a parameter the operations object does not carry. -/
lemma applyOperationsOverride_error (overrides : List (String × PyVal)) :
    ∀ (h : Heap) (r : ℕ), r < h.length →
      (∃ p ∈ overrides, hasattr (getObj h r) p.1 = false) →
      ∃ msg, (applyOperationsOverride h r overrides).2 = some (.valueError msg) := by
  induction overrides with
  | nil =>
    intro h r _ hbad
    obtain ⟨p, hp, _⟩ := hbad
    cases hp
  | cons c rest ih =>
    intro h r hr hbad
    rw [applyOperationsOverride]
    by_cases hc : hasattr (getObj h r) c.1 = true
    · rw [if_pos hc]
      obtain ⟨p, hp, hpfalse⟩ := hbad
      rcases List.mem_cons.mp hp with hp0 | hprest
      · rw [hp0] at hpfalse
        rw [hpfalse] at hc
        cases hc
      · refine ih _ _ (by rw [getObj_setObj_length]; exact hr) ⟨p, hprest, ?_⟩
        rw [getObj_setObj_self_of_lt _ hr,
          hasattr_setattrMap_existing _ _ _ hc]
        exact hpfalse
    · rw [if_neg hc]
      exact ⟨_, rfl⟩

lemma heapAfterMultiplier_length (h3 : Heap) (dr : ℕ) (dm : Option PyVal) :
    (heapAfterMultiplier h3 dr dm).length = h3.length := by
  unfold heapAfterMultiplier
  cases dm with
  | some v => exact getObj_setObj_length _ _ _
  | none => rfl

lemma heapAfterMultiplier_getObj_ne (h3 : Heap) (dr q : ℕ) (dm : Option PyVal)
    (hne : q ≠ dr) : getObj (heapAfterMultiplier h3 dr dm) q = getObj h3 q := by
  unfold heapAfterMultiplier
  cases dm with
  | some v => exact getObj_setObj_ne _ _ _ _ hne
  | none => rfl

/-- A successful `filterStations` returns a sublist of its input (same
order, some elements dropped). -/
lemma filterStations_sublist (removeIds : List String) (h : Heap) :
    ∀ (refs ks : List ℕ), filterStations removeIds h refs = .ok ks →
      ks.Sublist refs := by
  intro refs
  induction refs with
  | nil =>
    intro ks hk
    rw [filterStations] at hk
    cases hk
    exact List.Sublist.refl []
  | cons r0 rest ih =>
    intro ks hk
    rw [filterStations] at hk
    cases hv : getattrOpt (getObj h r0) "station_id" with
    | none =>
      rw [hv] at hk
      cases hk
    | some v =>
      rw [hv] at hk
      dsimp only at hk
      cases hrec : filterStations removeIds h rest with
      | error e =>
        rw [hrec] at hk
        cases hk
      | ok kss =>
        rw [hrec] at hk
        dsimp only at hk
        cases hk
        split
        · exact List.Sublist.cons₂ r0 (ih kss hrec)
        · exact List.Sublist.cons r0 (ih kss hrec)

/-- The station list surviving step 2 is a sublist of the post-addition
station list. -/
lemma stationsAfterRemove_sublist (h : Heap) (b : ConfigRef) (d : ScenarioDelta)
    (stRefs : List ℕ) (hok : stationsAfterRemove h b d = .ok stRefs) :
    stRefs.Sublist (stationsAfterAdd h b d) := by
  unfold stationsAfterRemove at hok
  cases hrm : d.remove_station_ids with
  | nil =>
    rw [hrm] at hok
    cases hok
    exact List.Sublist.refl _
  | cons i is =>
    rw [hrm] at hok
    dsimp only at hok
    exact filterStations_sublist (i :: is) (heapAfterAdd h b d)
      (stationsAfterAdd h b d) stRefs hok

/-- The operations step raises a `ValueError` when an override names an
unknown parameter, for any heap `h3` that agrees with the baseline's
operations object (as the heap after steps 1-3 does). -/
lemma opsStep_error (h : Heap) (b : ConfigRef) (d : ScenarioDelta) (h3 : Heap)
    (hlen3 : h3.length = (heapAfterAdd h b d).length)
    (hops3 : getObj h3 (copyCfg h b).operations = getObj h b.operations)
    (hbadops : ∃ p ∈ d.operations_override,
      hasattr (getObj h b.operations) p.1 = false) :
    ∃ msg, (applyOperationsOverride
        (heapAfterMultiplier h3 (copyCfg h b).demand d.demand_multiplier)
        (copyCfg h b).operations d.operations_override).2
      = some (.valueError msg) := by
  have hnedo : (copyCfg h b).operations ≠ (copyCfg h b).demand := by
    rw [copyCfg_demand_eq, copyCfg_operations_eq]
    omega
  have hopslt : (copyCfg h b).operations
      < (heapAfterMultiplier h3 (copyCfg h b).demand d.demand_multiplier).length := by
    rw [heapAfterMultiplier_length, hlen3, heapAfterAdd_length,
      copyCfg_operations_eq]
    omega
  refine applyOperationsOverride_error d.operations_override _ _ hopslt ?_
  obtain ⟨p, hp, hpfalse⟩ := hbadops
  refine ⟨p, hp, ?_⟩
  rw [heapAfterMultiplier_getObj_ne _ _ _ _ hnedo, hops3]
  exact hpfalse

/-- C6 (counterexample requires the concrete objects defined below; see
`C6_counterexample`).  C6 (amended): for every baseline and every delta,
if a per-station override map names an attribute that does not exist on a
station that is present (by `station_id`) in the station list after the
delta's additions and removals (`stRefs`, the list `_modify_stations`
actually iterates), or an operational override names a parameter that does
not exist on the operations object, then `apply_scenario` fails with a
`ValueError` — the error kind shared by both `_modify_stations` and
`_apply_operations_override` — and the whole application aborts with that
error.  The station objects are assumed to carry a `station_id`
attribute, as every schema-built station does; that same assumption makes
the removal step total, so `hok` merely names its result. -/
theorem C6_unknown_attribute (h : Heap) (b : ConfigRef) (d : ScenarioDelta)
    (stRefs : List ℕ)
    (hok : stationsAfterRemove h b d = .ok stRefs)
    (hids : ∀ r ∈ stationsAfterAdd h b d,
      hasattr (getObj (heapAfterAdd h b d) r) "station_id" = true)
    (hbad : (∃ r ∈ stRefs, ∃ sid changes,
        getattrOpt (getObj (heapAfterAdd h b d) r) "station_id"
          = some (.str sid) ∧
        (d.modify_stations.find? (fun p => p.1 = sid)).map (fun p => p.2)
          = some changes ∧
        ∃ p ∈ changes, hasattr (getObj (heapAfterAdd h b d) r) p.1 = false)
      ∨ ((∃ p ∈ d.operations_override,
          hasattr (getObj h b.operations) p.1 = false))) :
    ∃ msg, (applyScenario h b d).2 = Except.error (.valueError msg) := by
  have hsub : stRefs.Sublist (stationsAfterAdd h b d) :=
    stationsAfterRemove_sublist h b d stRefs hok
  have hmem : ∀ r ∈ stRefs, r ∈ stationsAfterAdd h b d :=
    fun r hr => hsub.subset hr
  have hlt : ∀ r ∈ stRefs, r < (heapAfterAdd h b d).length :=
    fun r hr => (stationsAfterAdd_bounds h b d r (hmem r hr)).2
  have hnd : stRefs.Nodup := (stationsAfterAdd_nodup h b d).sublist hsub
  have hids2 : ∀ r ∈ stRefs,
      hasattr (getObj (heapAfterAdd h b d) r) "station_id" = true :=
    fun r hr => hids r (hmem r hr)
  have hnotin_ops : (copyCfg h b).operations ∉ stRefs := by
    intro hin
    obtain ⟨hbound, _⟩ := stationsAfterAdd_bounds h b d _ (hmem _ hin)
    rw [copyCfg_operations_eq] at hbound
    omega
  have hops_base : getObj (heapAfterAdd h b d) (copyCfg h b).operations
      = getObj h b.operations := by
    unfold heapAfterAdd
    rw [getObj_append_left _ _ _ (by
        rw [heapAfterCopy_length, copyCfg_operations_eq]; omega),
      getObj_copy_operations]
  unfold applyScenario
  rw [hok]
  dsimp only
  obtain ⟨mlen, mne, mkind, merr⟩ :=
    modifyStations_facts d.modify_stations stRefs
      (heapAfterAdd h b d) hnd hlt hids2
  cases hms : d.modify_stations with
  | nil =>
    dsimp only
    rcases hbad with ⟨r, hr, sid, changes, hgid, hfind, hbadp⟩ | hbadops
    · rw [hms] at hfind
      simp at hfind
    · obtain ⟨msg, hmsg⟩ := opsStep_error h b d (heapAfterAdd h b d) rfl
        hops_base hbadops
      cases hopseq : applyOperationsOverride
          (heapAfterMultiplier (heapAfterAdd h b d) (copyCfg h b).demand
            d.demand_multiplier)
          (copyCfg h b).operations d.operations_override with
      | mk h5 oe2 =>
        rw [hopseq] at hmsg
        simp only at hmsg
        rw [hmsg]
        exact ⟨msg, rfl⟩
  | cons m ms =>
    rw [hms] at mlen mne mkind merr
    cases hmodeq : modifyStations (m :: ms) (heapAfterAdd h b d) stRefs with
    | mk h3 oe =>
      rw [hmodeq] at mlen mne mkind merr
      simp only at mlen mne mkind merr
      rcases hbad with hbadst | hbadops
      · obtain ⟨msg, hmsg⟩ := merr (by
          obtain ⟨r, hr, sid, changes, hgid, hfind, hbadp⟩ := hbadst
          rw [hms] at hfind
          exact ⟨r, hr, sid, changes, hgid, hfind, hbadp⟩)
        rw [hmsg]
        dsimp only
        exact ⟨msg, rfl⟩
      · cases oe with
        | some e =>
          rcases mkind with hnone | ⟨msg, hmsg⟩
          · cases hnone
          · cases hmsg
            dsimp only
            exact ⟨msg, rfl⟩
        | none =>
          dsimp only
          have hops3 : getObj h3 (copyCfg h b).operations
              = getObj h b.operations := by
            rw [mne _ hnotin_ops, hops_base]
          obtain ⟨msg, hmsg⟩ := opsStep_error h b d h3 mlen hops3 hbadops
          cases hopseq : applyOperationsOverride
              (heapAfterMultiplier h3 (copyCfg h b).demand d.demand_multiplier)
              (copyCfg h b).operations d.operations_override with
          | mk h5 oe2 =>
            rw [hopseq] at hmsg
            simp only at hmsg
            rw [hmsg]
            exact ⟨msg, rfl⟩

/-! ### Concrete configuration objects for witnesses and counterexamples -/

/-- A schema-built `StationConfig` object with id `"S1"` (the attribute set
of `config/schema.py`'s `StationConfig` after `__post_init__`). -/
def stationObjS1 : AttrMap :=
  [("station_id", .str "S1"), ("tier", .str "high"), ("chargers", .int 2),
   ("inventory_capacity", .int 10), ("lat", .float 0), ("lon", .float 0),
   ("initial_charged", .int 2)]

/-- A schema-built `DemandConfig` object: exactly the fields of
`config/schema.py` — in particular no `weather_modifiers` or
`event_modifiers`. -/
def schemaDemandObj : AttrMap :=
  [("base_rates", .dict [("high", .float 20), ("medium", .float 12),
      ("low", .float 6)]),
   ("time_multipliers", .dict [("18", .float (9 / 5))]),
   ("scenario_multiplier", .float 1)]

/-- A schema-built `OperationalConfig` object (defaults of
`config/schema.py`). -/
def schemaOperationsObj : AttrMap :=
  [("swap_duration", .float 2), ("charge_duration", .float 210),
   ("replenishment_threshold", .float (1 / 5)),
   ("replenishment_amount", .int 10), ("replenishment_delay", .float 30)]

/-- A one-station baseline heap. -/
def exampleHeap : Heap := [stationObjS1, schemaDemandObj, schemaOperationsObj]

/-- The baseline configuration over `exampleHeap`. -/
def exampleBaseline : ConfigRef := ⟨[0], 1, 2⟩

/-- C6 (counterexample): a delta whose per-station override map names the
unknown attribute `"bogus"` under the station id `"S2"`, which is not in
the baseline's station list.  The claim says `apply_scenario` must fail
with the unknown-attribute error; the code silently skips the entry
(`_modify_stations` iterates stations, not the override map) and the
application succeeds. -/
theorem C6_counterexample :
    (applyScenario exampleHeap exampleBaseline
        ⟨[], [], [("S2", [("bogus", .int 5)])], none, [], [], [], []⟩).2
      = Except.ok ⟨[3], 4, 5⟩ := rfl

/-- C6 witness: the amended theorem at a concrete input with a non-empty
removal list — the delta adds a station `"S2"`, removes it again, and
names the unknown attribute `"bogus"` on station `"S1"`, which survives
into the post-removal station list; the `ValueError` is raised. -/
theorem C6_unknown_attribute_witness :
    ∃ msg, (applyScenario exampleHeap exampleBaseline
        ⟨[[("station_id", .str "S2")]], ["S2"],
         [("S1", [("bogus", .int 5)])], none, [], [], [], []⟩).2
      = Except.error (.valueError msg) :=
  C6_unknown_attribute exampleHeap exampleBaseline
    ⟨[[("station_id", .str "S2")]], ["S2"],
     [("S1", [("bogus", .int 5)])], none, [], [], [], []⟩
    [3] rfl (by decide)
    (Or.inl ⟨3, by decide, "S1", [("bogus", .int 5)], rfl, rfl,
      ("bogus", .int 5), List.mem_cons_self _ _, by decide⟩)

/-- C2 witness: purity at a concrete baseline and a delta that adds,
removes and modifies stations and carries every other kind of edit. -/
theorem C2_scenario_purity_witness :
    readBaseline (applyScenario exampleHeap exampleBaseline
        ⟨[stationObjS1], ["S1"], [("S1", [("chargers", .int 5)])],
         some (.float 2), [("swap_duration", .float 3)], [], [],
         [[("policy", .str "jit")]]⟩).1 exampleBaseline
      = readBaseline exampleHeap exampleBaseline :=
  C2_scenario_purity exampleHeap exampleBaseline
    ⟨[stationObjS1], ["S1"], [("S1", [("chargers", .int 5)])],
     some (.float 2), [("swap_duration", .float 3)], [], [],
     [[("policy", .str "jit")]]⟩
    (by decide) (by decide) (by decide)

/-- C7 witness: the schema-gap theorem at a concrete baseline with one
weather intervention. -/
theorem C7_demand_schema_gap_witness :
    (([[("multiplier", PyVal.float 2)]] : List (List (String × PyVal))) ≠ [] →
      (applyScenario exampleHeap exampleBaseline
          ⟨[], [], [], none, [], [[("multiplier", .float 2)]], [], []⟩).2
        = Except.error (.attributeError "weather_modifiers")) ∧
    (([[("multiplier", PyVal.float 2)]] : List (List (String × PyVal))) = [] →
      (([] : List (List (String × PyVal))) ≠ []) →
      (applyScenario exampleHeap exampleBaseline
          ⟨[], [], [], none, [], [[("multiplier", .float 2)]], [], []⟩).2
        = Except.error (.attributeError "event_modifiers")) :=
  C7_demand_schema_gap exampleHeap exampleBaseline [] none
    [[("multiplier", .float 2)]] [] [] (by decide) (by decide)

/-! ## Station state machine (`src/simulation/station.py`) under SimPy

The station's SimPy processes (`process_swap`, `_charge_cycle`, and the
demand generator's spawning loop) are embedded as a small-step interpreter
that reproduces SimPy's scheduling discipline exactly:

* the event queue is ordered by `(time, priority, event id)`, where
  priority 0 is `URGENT` (process initialization) and 1 is `NORMAL`
  (timeouts, succeeded get/put events, fired conditions), and event ids
  are assigned in scheduling order;
* `simpy.Container.get(1)` appends the request to a FIFO queue and serves
  from the head whenever the level allows (at request creation and when a
  put event is processed); serving decrements the level immediately and
  schedules the request's succeed event;
* `a | b` (AnyOf) fires when the first of its events is *processed* and
  its value is built when the condition event itself is processed,
  containing exactly the events processed by then — so
  `battery_request in result` holds iff the get's succeed event was
  processed before the condition event;
* `battery_request.cancel()` removes the request from the queue only if
  it has not triggered; a triggered-but-unprocessed request is left alone
  (this is the source of the unit-leak race, claims C3 and C9).

Simulated clock values (Python floats: exact dyadic rationals) enter the
interpreter only through addition, subtraction and comparison, so the
whole machine is stated over any linearly ordered additive group `T`;
`T = ℚ` is the float model, and concrete runs whose times are integers
are evaluated at `T = ℤ` (where every float operation involved is exact).

Arrival times are supplied as an explicit list (the demand generator's
draws depend only on the clock, never on station state, so two runs that
differ only in `max_wait_time` see identical arrival times).  Customer
ids are indices.  One scheduling-order difference to SimPy is deliberate
and outcome-neutral: the first demand timeout receives its event id at
initialization rather than during the time-0 processing (after the
initial charge-cycle timeouts); at a tie between an arrival and a charge
completion, both orders serve the arrival at the same instant with the
same logged values. -/

/-- Record of a swap event (`SwapEvent` in `station.py`, station_id
omitted, customer ids as indices). -/
structure SwapEv (T : Type) where
  time : T
  event_type : String
  customer_id : ℕ
  wait_time : T
deriving DecidableEq

/-- Record of a charging event (`ChargeEvent` in `station.py`). -/
structure ChargeEv (T : Type) where
  time : T
  event_type : String
deriving DecidableEq

/-- Record of an inventory snapshot (`InventoryEvent` in `station.py`). -/
structure InvEv (T : Type) where
  time : T
  charged_count : ℤ
  depleted_count : ℤ
deriving DecidableEq

/-- The control state of one `process_swap` customer process, combining
the generator's program counter with the state of its get request and its
patience race:
`queuedPending` — in the container queue, race pending;
`trigPending` — get succeeded (level taken), succeed event unprocessed;
`queuedFired` — patience processed first while still queued;
`trigFired` — patience processed first, get triggered but unprocessed;
`procFired` — get processed first (condition fired, success pending);
`swapping` — swap in progress; `doneSuccess`, `doneRejected` — final;
`doneLeaked` — rejected while the get had already consumed a unit (the
unit is never returned). -/
inductive CPhase where
  | queuedPending
  | trigPending
  | queuedFired
  | trigFired
  | procFired
  | swapping
  | doneSuccess
  | doneRejected
  | doneLeaked
deriving DecidableEq

/-- One customer process. -/
structure Cust (T : Type) where
  arrival : T
  phase : CPhase
deriving DecidableEq

/-- The scheduler actions (pending event callbacks). -/
inductive Act (T : Type) where
  | demandWake (k : ℕ)
  | custInit (cid : ℕ)
  | reqPop (cid : ℕ)
  | patience (cid : ℕ)
  | condPop (cid : ℕ)
  | swapEnd (cid : ℕ) (wait : T)
  | chargeInit
  | chargeTimeout
  | putPop
deriving DecidableEq

/-- A scheduled event: SimPy's heap entries `(time, priority, eid, event)`. -/
structure Entry (T : Type) where
  time : T
  prio : ℕ
  eid : ℕ
  act : Act T
deriving DecidableEq

section StationMachine

variable {T : Type} [AddCommGroup T] [LinearOrder T]

/-- Strict heap order on entries (eids are unique, so this is total). -/
def entryLT (a b : Entry T) : Prop :=
  a.time < b.time ∨ (a.time = b.time ∧
    (a.prio < b.prio ∨ (a.prio = b.prio ∧ a.eid < b.eid)))

instance (a b : Entry T) : Decidable (entryLT a b) :=
  instDecidableOr

/-- Insert an entry into the sorted event list. -/
def insertEntry (e : Entry T) : List (Entry T) → List (Entry T)
  | [] => [e]
  | x :: xs => if entryLT x e then x :: insertEntry e xs else e :: x :: xs

/-- Full station-interpreter state. -/
structure StationState (T : Type) where
  chargers : ℕ
  swap_duration : T
  charge_duration : T
  max_wait_time : T
  arrivals : List T
  now : T
  level : ℕ
  depleted_count : ℤ
  charging_count : ℤ
  total_arrivals : ℕ
  successful_swaps : ℕ
  rejected_swaps : ℕ
  total_wait_time : T
  getQueue : List ℕ
  custs : List (Cust T)
  heap : List (Entry T)
  nextEid : ℕ
  swap_events : List (SwapEv T)
  charge_events : List (ChargeEv T)
  inventory_events : List (InvEv T)
deriving DecidableEq

/-- `env.schedule`: push an entry with a fresh event id. -/
def sched (s : StationState T) (t : T) (prio : ℕ) (a : Act T) : StationState T :=
  { s with
    heap := insertEntry ⟨t, prio, s.nextEid, a⟩ s.heap,
    nextEid := s.nextEid + 1 }

/-- `Station._log_inventory`. -/
def logInventory (s : StationState T) : StationState T :=
  { s with inventory_events :=
      s.inventory_events ++ [(⟨s.now, (s.level : ℤ), s.depleted_count⟩ : InvEv T)] }

/-- Read a customer record. -/
def getCust (s : StationState T) (cid : ℕ) : Cust T :=
  s.custs.getD cid ⟨0, .doneRejected⟩

/-- Set a customer's phase. -/
def setPhase (s : StationState T) (cid : ℕ) (p : CPhase) : StationState T :=
  { s with custs := s.custs.set cid ⟨(getCust s cid).arrival, p⟩ }

/-- `Container._trigger_get`: serve the FIFO get queue from the head while
the level allows; each served request's succeed event is scheduled now.
The phase bookkeeping mirrors "triggered" becoming true. -/
def serveLoop : ℕ → StationState T → StationState T
  | 0, s => s
  | fuel + 1, s =>
    match s.getQueue with
    | [] => s
    | c :: rest =>
      if 1 ≤ s.level then
        let s1 := { s with level := s.level - 1, getQueue := rest }
        let s2 := match (getCust s1 c).phase with
          | .queuedPending => setPhase s1 c .trigPending
          | .queuedFired => setPhase s1 c .trigFired
          | _ => s1
        serveLoop fuel (sched s2 s2.now 1 (.reqPop c))
      else s

def serveQueue (s : StationState T) : StationState T :=
  serveLoop s.getQueue.length s

/-- One event callback (the code between two suspension points of the
corresponding SimPy process). -/
def step (s0 : StationState T) (e : Entry T) : StationState T :=
  let s := { s0 with now := e.time }
  match e.act with
  | .demandWake k =>
      -- demand generator wakes: spawn `process_swap` (its Initialize event
      -- is URGENT at the current time), then schedule the next wake
      let cid := s.custs.length
      let s1 := { s with custs := s.custs ++ [(⟨s.now, .queuedPending⟩ : Cust T)] }
      let s2 := sched s1 s.now 0 (.custInit cid)
      if k + 1 < s.arrivals.length then
        sched s2 (s.arrivals.getD (k + 1) 0) 1 (.demandWake (k + 1))
      else s2
  | .custInit cid =>
      -- process_swap start: count and log the arrival, create the get
      -- request (which may be served immediately), then start the patience
      -- timer
      let s1 := { s with
        total_arrivals := s.total_arrivals + 1,
        swap_events := s.swap_events ++ [(⟨s.now, "arrival", cid, 0⟩ : SwapEv T)] }
      let s2 := serveQueue { s1 with getQueue := s1.getQueue ++ [cid] }
      sched s2 (s.now + s.max_wait_time) 1 (.patience cid)
  | .reqPop cid =>
      -- the get request's succeed event is processed
      match (getCust s cid).phase with
      | .trigPending => sched (setPhase s cid .procFired) s.now 1 (.condPop cid)
      | .trigFired => setPhase s cid .procFired
      | _ => s
  | .patience cid =>
      -- the patience timeout is processed; fire the condition if pending
      match (getCust s cid).phase with
      | .queuedPending => sched (setPhase s cid .queuedFired) s.now 1 (.condPop cid)
      | .trigPending => sched (setPhase s cid .trigFired) s.now 1 (.condPop cid)
      | _ => s
  | .condPop cid =>
      -- the AnyOf condition event is processed: resume process_swap
      match (getCust s cid).phase with
      | .procFired =>
          -- battery acquired within patience: log swap_start, hold for the
          -- swap duration
          let wait := s.now - (getCust s cid).arrival
          let s1 := { s with
            total_wait_time := s.total_wait_time + wait,
            swap_events := s.swap_events
              ++ [(⟨s.now, "swap_start", cid, wait⟩ : SwapEv T)] }
          sched (setPhase s1 cid .swapping) (s.now + s.swap_duration) 1
            (.swapEnd cid wait)
      | .queuedFired =>
          -- timeout: the request has not triggered, so cancel() withdraws
          -- it from the queue; count and log the rejection
          let s1 := { s with
            getQueue := s.getQueue.erase cid,
            rejected_swaps := s.rejected_swaps + 1,
            swap_events := s.swap_events
              ++ [(⟨s.now, "rejected", cid, s.max_wait_time⟩ : SwapEv T)] }
          setPhase s1 cid .doneRejected
      | .trigFired =>
          -- timeout, but the request already triggered (the level was
          -- already decremented): cancel() is skipped and the unit is lost
          let s1 := { s with
            rejected_swaps := s.rejected_swaps + 1,
            swap_events := s.swap_events
              ++ [(⟨s.now, "rejected", cid, s.max_wait_time⟩ : SwapEv T)] }
          setPhase s1 cid .doneLeaked
      | _ => s
  | .swapEnd cid wait =>
      match (getCust s cid).phase with
      | .swapping =>
          -- swap completes: the consumed unit becomes depleted, log and
          -- fire-and-forget a charge cycle
          let s1 := { s with
            successful_swaps := s.successful_swaps + 1,
            depleted_count := s.depleted_count + 1,
            swap_events := s.swap_events
              ++ [(⟨s.now, "swap_end", cid, wait⟩ : SwapEv T)] }
          sched (logInventory (setPhase s1 cid .doneSuccess)) s.now 0 .chargeInit
      | _ => s
  | .chargeInit =>
      -- _charge_cycle start
      let s1 := { s with
        charge_events := s.charge_events ++ [(⟨s.now, "charge_start"⟩ : ChargeEv T)],
        charging_count := s.charging_count + 1 }
      sched s1 (s.now + s.charge_duration) 1 .chargeTimeout
  | .chargeTimeout =>
      -- _charge_cycle completes its hold: the unit returns to the pool
      -- (Container.put succeeds synchronously when it fits; its event's
      -- processing serves waiting getters and resumes the cycle)
      let s1 := { s with
        charge_events := s.charge_events ++ [(⟨s.now, "charge_end"⟩ : ChargeEv T)],
        charging_count := s.charging_count - 1,
        depleted_count := s.depleted_count - 1 }
      if s1.level + 1 ≤ s1.chargers then
        sched { s1 with level := s1.level + 1 } s.now 1 .putPop
      else s1
  | .putPop =>
      -- the put event is processed: serve waiting getters, then the charge
      -- cycle resumes and logs inventory
      logInventory (serveQueue s)

/-- Run up to `fuel` events strictly before the horizon (`env.run(until)`
schedules an URGENT stop event at the horizon, so events at or after it do
not run). -/
def runSteps (horizon : T) : ℕ → StationState T → StationState T
  | 0, s => s
  | fuel + 1, s =>
    match s.heap with
    | [] => s
    | e :: rest =>
      if e.time < horizon then runSteps horizon fuel (step { s with heap := rest } e)
      else s

/-- `Station.__init__` followed by the engine wiring: the initial charge
cycles for the initially-depleted units, the initial inventory log, and
the demand process. -/
def initStation (chargers initial_charged : ℕ) (swap_duration charge_duration
    max_wait_time : T) (arrivals : List T) : StationState T :=
  let level := min initial_charged chargers
  let s0 : StationState T :=
    { chargers := chargers, swap_duration := swap_duration,
      charge_duration := charge_duration, max_wait_time := max_wait_time,
      arrivals := arrivals, now := 0, level := level,
      depleted_count := (chargers : ℤ) - (level : ℤ), charging_count := 0,
      total_arrivals := 0, successful_swaps := 0, rejected_swaps := 0,
      total_wait_time := 0, getQueue := [], custs := [], heap := [],
      nextEid := 0, swap_events := [], charge_events := [],
      inventory_events := [] }
  let s1 := (List.range (chargers - level)).foldl
    (fun s _ => sched s 0 0 .chargeInit) s0
  let s2 := logInventory s1
  match arrivals with
  | [] => s2
  | t0 :: _ => sched s2 t0 1 (.demandWake 0)

/-- A full bounded run. -/
def runStation (chargers initial_charged : ℕ) (swap_duration charge_duration
    max_wait_time : T) (arrivals : List T) (horizon : T) (fuel : ℕ) :
    StationState T :=
  runSteps horizon fuel
    (initStation chargers initial_charged swap_duration charge_duration
      max_wait_time arrivals)

end StationMachine

/-! ## Claim C1: the inventory conservation invariant

A unit taken out of the container but not yet accounted as depleted is
*held* by a customer: between the serving of its get request and the end
of its swap (phases `trigPending`, `trigFired`, `procFired`, `swapping`),
or forever in the leaked final phase (`doneLeaked`).  The quantity
`level + depleted_count + holding` never exceeds the charger count, and
every logged inventory entry therefore satisfies
`charged_count + depleted_count ≤ chargers`.  Equality — the spec's
conservation invariant — fails exactly while some customer holds a unit,
which the entry logged at the end of an overlapping swap exhibits. -/

/-- How many container units a customer in the given phase holds: taken
from the pool (the get request triggered) but not yet counted as
depleted. -/
def holdsZ : CPhase → ℤ
  | .trigPending => 1
  | .trigFired => 1
  | .procFired => 1
  | .swapping => 1
  | .doneLeaked => 1
  | .queuedPending => 0
  | .queuedFired => 0
  | .doneSuccess => 0
  | .doneRejected => 0

section C1InvList

variable {T : Type}

/-- Total number of units held by the customers. -/
def holdingZ (cs : List (Cust T)) : ℤ := (cs.map (fun c => holdsZ c.phase)).sum

lemma holdsZ_nonneg (p : CPhase) : 0 ≤ holdsZ p := by cases p <;> simp [holdsZ]

lemma holdsZ_le_one (p : CPhase) : holdsZ p ≤ 1 := by cases p <;> simp [holdsZ]

lemma holdingZ_nil : holdingZ ([] : List (Cust T)) = 0 := rfl

lemma holdingZ_cons (c : Cust T) (cs : List (Cust T)) :
    holdingZ (c :: cs) = holdsZ c.phase + holdingZ cs := by
  simp [holdingZ]

lemma holdingZ_append (a b : List (Cust T)) :
    holdingZ (a ++ b) = holdingZ a + holdingZ b := by
  simp [holdingZ]

lemma holdingZ_nonneg (cs : List (Cust T)) : 0 ≤ holdingZ cs := by
  induction cs with
  | nil => simp [holdingZ]
  | cons c cs ih =>
    rw [holdingZ_cons]
    have := holdsZ_nonneg c.phase
    linarith

lemma holdingZ_set_le (cs : List (Cust T)) (cid : ℕ) (a : T) (p : CPhase)
    (d : Cust T) (hd : holdsZ d.phase = 0) :
    holdingZ (cs.set cid ⟨a, p⟩) ≤
      holdingZ cs - holdsZ ((cs.getD cid d).phase) + holdsZ p := by
  induction cs generalizing cid with
  | nil =>
    have h1 : holdingZ (([] : List (Cust T)).set cid ⟨a, p⟩) = 0 := by
      cases cid <;> rfl
    have h2 : ([] : List (Cust T)).getD cid d = d := by
      cases cid <;> rfl
    rw [h1, h2, hd, holdingZ_nil]
    have := holdsZ_nonneg p
    linarith
  | cons x xs ih =>
    cases cid with
    | zero =>
      simp only [List.set, List.getD_cons_zero, holdingZ_cons]
      linarith
    | succ n =>
      simp only [List.set, List.getD_cons_succ, holdingZ_cons]
      have := ih n
      linarith

end C1InvList

section C1Inv

set_option linter.unusedSectionVars false

variable {T : Type} [AddCommGroup T] [LinearOrder T]

/-- The run invariant behind the amended conservation claim: the charger
count is fixed, the in-pool units plus depleted units plus held units
never exceed it, and every inventory entry logged so far respects the
bound. -/
def InvC1 (c : ℕ) (s : StationState T) : Prop :=
  s.chargers = c ∧
  ((s.level : ℤ) + s.depleted_count + holdingZ s.custs ≤ (c : ℤ) ∧
    ∀ ev ∈ s.inventory_events, ev.charged_count + ev.depleted_count ≤ (c : ℤ))

lemma invC1_sched {c : ℕ} {s : StationState T} (t : T) (pr : ℕ) (a : Act T)
    (h : InvC1 c s) : InvC1 c (sched s t pr a) := h

lemma invC1_logInventory {c : ℕ} {s : StationState T} (h : InvC1 c s) :
    InvC1 c (logInventory s) := by
  obtain ⟨h0, h1, h2⟩ := h
  refine ⟨h0, h1, ?_⟩
  intro ev hev
  have hev' : ev ∈ s.inventory_events
      ++ [(⟨s.now, (s.level : ℤ), s.depleted_count⟩ : InvEv T)] := hev
  rcases List.mem_append.mp hev' with hl | hr
  · exact h2 ev hl
  · have he : ev = ⟨s.now, (s.level : ℤ), s.depleted_count⟩ := List.mem_singleton.mp hr
    subst he
    have := holdingZ_nonneg s.custs
    dsimp only
    linarith

lemma invC1_setPhase_of_eq {c : ℕ} {s : StationState T} (cid : ℕ) {p q : CPhase}
    (hq : (getCust s cid).phase = q) (hpq : holdsZ p ≤ holdsZ q) (h : InvC1 c s) :
    InvC1 c (setPhase s cid p) := by
  obtain ⟨h0, h1, h2⟩ := h
  refine ⟨h0, ?_, h2⟩
  show (s.level : ℤ) + s.depleted_count
      + holdingZ (s.custs.set cid ⟨(getCust s cid).arrival, p⟩) ≤ (c : ℤ)
  have hs := holdingZ_set_le s.custs cid (getCust s cid).arrival p
    ⟨0, .doneRejected⟩ rfl
  rw [show s.custs.getD cid ⟨0, .doneRejected⟩ = getCust s cid from rfl, hq] at hs
  have := holdsZ_nonneg q
  linarith

lemma invC1_levelDec {c : ℕ} {s : StationState T} (rest : List ℕ)
    (h : InvC1 c s) : InvC1 c { s with level := s.level - 1, getQueue := rest } := by
  obtain ⟨h0, h1, h2⟩ := h
  refine ⟨h0, ?_, h2⟩
  show ((s.level - 1 : ℕ) : ℤ) + s.depleted_count + holdingZ s.custs ≤ (c : ℤ)
  have hc : ((s.level - 1 : ℕ) : ℤ) ≤ (s.level : ℤ) := by omega
  linarith

lemma invC1_serveCore {c : ℕ} {s : StationState T} (cid : ℕ) (rest : List ℕ)
    (p : CPhase) (hl : 1 ≤ s.level) (hp : holdsZ p ≤ 1) (h : InvC1 c s) :
    InvC1 c (setPhase { s with level := s.level - 1, getQueue := rest } cid p) := by
  obtain ⟨h0, h1, h2⟩ := h
  refine ⟨h0, ?_, h2⟩
  show ((s.level - 1 : ℕ) : ℤ) + s.depleted_count
      + holdingZ (s.custs.set cid ⟨(getCust s cid).arrival, p⟩) ≤ (c : ℤ)
  have hs := holdingZ_set_le s.custs cid (getCust s cid).arrival p
    ⟨0, .doneRejected⟩ rfl
  have hnn := holdsZ_nonneg ((s.custs.getD cid ⟨0, .doneRejected⟩).phase)
  have hc : ((s.level - 1 : ℕ) : ℤ) = (s.level : ℤ) - 1 := by omega
  linarith

lemma invC1_serveLoop {c : ℕ} (fuel : ℕ) :
    ∀ s : StationState T, InvC1 c s → InvC1 c (serveLoop fuel s) := by
  induction fuel with
  | zero => exact fun s h => h
  | succ n ih =>
    intro s h
    rw [serveLoop]
    cases hq : s.getQueue with
    | nil => exact h
    | cons cid rest =>
      dsimp only
      by_cases hl : 1 ≤ s.level
      · rw [if_pos hl]
        refine ih _ (invC1_sched _ _ _ ?_)
        cases hph : (getCust { s with level := s.level - 1, getQueue := rest } cid).phase with
        | queuedPending => exact invC1_serveCore cid rest _ hl (by decide) h
        | queuedFired => exact invC1_serveCore cid rest _ hl (by decide) h
        | trigPending => exact invC1_levelDec rest h
        | trigFired => exact invC1_levelDec rest h
        | procFired => exact invC1_levelDec rest h
        | swapping => exact invC1_levelDec rest h
        | doneSuccess => exact invC1_levelDec rest h
        | doneRejected => exact invC1_levelDec rest h
        | doneLeaked => exact invC1_levelDec rest h
      · rw [if_neg hl]
        exact h

lemma invC1_serveQueue {c : ℕ} {s : StationState T} (h : InvC1 c s) :
    InvC1 c (serveQueue s) :=
  invC1_serveLoop _ s h

lemma invC1_appendCust {c : ℕ} {s : StationState T} (a : T) (h : InvC1 c s) :
    InvC1 c { s with custs := s.custs ++ [(⟨a, .queuedPending⟩ : Cust T)] } := by
  obtain ⟨h0, h1, h2⟩ := h
  refine ⟨h0, ?_, h2⟩
  show (s.level : ℤ) + s.depleted_count
      + holdingZ (s.custs ++ [(⟨a, .queuedPending⟩ : Cust T)]) ≤ (c : ℤ)
  rw [holdingZ_append]
  have : holdingZ ([(⟨a, .queuedPending⟩ : Cust T)]) = 0 := rfl
  linarith

lemma invC1_swapDone {c : ℕ} (s : StationState T) (cid : ℕ) (ns : ℕ)
    (evs : List (SwapEv T)) (hq : (getCust s cid).phase = .swapping)
    (h : InvC1 c s) :
    InvC1 c (setPhase { s with
      successful_swaps := ns,
      depleted_count := s.depleted_count + 1,
      swap_events := evs } cid .doneSuccess) := by
  obtain ⟨h0, h1, h2⟩ := h
  refine ⟨h0, ?_, h2⟩
  show (s.level : ℤ) + (s.depleted_count + 1)
      + holdingZ (s.custs.set cid ⟨(getCust s cid).arrival, .doneSuccess⟩) ≤ (c : ℤ)
  have hs := holdingZ_set_le s.custs cid (getCust s cid).arrival .doneSuccess
    ⟨0, .doneRejected⟩ rfl
  rw [show s.custs.getD cid ⟨0, .doneRejected⟩ = getCust s cid from rfl, hq] at hs
  have e1 : holdsZ CPhase.swapping = 1 := rfl
  have e2 : holdsZ CPhase.doneSuccess = 0 := rfl
  linarith

lemma invC1_chargeReturn {c : ℕ} (s : StationState T) (evs : List (ChargeEv T))
    (cc : ℤ) (h : InvC1 c s) :
    InvC1 c { s with
      charge_events := evs,
      charging_count := cc,
      depleted_count := s.depleted_count - 1,
      level := s.level + 1 } := by
  obtain ⟨h0, h1, h2⟩ := h
  refine ⟨h0, ?_, h2⟩
  show ((s.level + 1 : ℕ) : ℤ) + (s.depleted_count - 1) + holdingZ s.custs ≤ (c : ℤ)
  have hc : ((s.level + 1 : ℕ) : ℤ) = (s.level : ℤ) + 1 := by omega
  linarith

lemma invC1_depletedDec {c : ℕ} (s : StationState T) (evs : List (ChargeEv T))
    (cc : ℤ) (h : InvC1 c s) :
    InvC1 c { s with
      charge_events := evs,
      charging_count := cc,
      depleted_count := s.depleted_count - 1 } := by
  obtain ⟨h0, h1, h2⟩ := h
  refine ⟨h0, ?_, h2⟩
  show (s.level : ℤ) + (s.depleted_count - 1) + holdingZ s.custs ≤ (c : ℤ)
  linarith

lemma invC1_step {c : ℕ} {s : StationState T} (e : Entry T) (h : InvC1 c s) :
    InvC1 c (step s e) := by
  obtain ⟨t, pr, eid, act⟩ := e
  have hnow : InvC1 c ({ s with now := t } : StationState T) := h
  cases act with
  | demandWake k =>
    rw [step]
    dsimp only
    by_cases hk : k + 1 < s.arrivals.length
    · rw [if_pos hk]
      exact invC1_sched _ _ _ (invC1_sched _ _ _ (invC1_appendCust _ hnow))
    · rw [if_neg hk]
      exact invC1_sched _ _ _ (invC1_appendCust _ hnow)
  | custInit cid =>
    rw [step]
    dsimp only
    exact invC1_sched _ _ _ (invC1_serveQueue hnow)
  | reqPop cid =>
    rw [step]
    dsimp only
    cases hph : (getCust ({ s with now := t } : StationState T) cid).phase with
    | trigPending =>
      exact invC1_sched _ _ _ (invC1_setPhase_of_eq cid hph (by decide) hnow)
    | trigFired =>
      exact invC1_setPhase_of_eq cid hph (by decide) hnow
    | queuedPending => exact hnow
    | queuedFired => exact hnow
    | procFired => exact hnow
    | swapping => exact hnow
    | doneSuccess => exact hnow
    | doneRejected => exact hnow
    | doneLeaked => exact hnow
  | patience cid =>
    rw [step]
    dsimp only
    cases hph : (getCust ({ s with now := t } : StationState T) cid).phase with
    | queuedPending =>
      exact invC1_sched _ _ _ (invC1_setPhase_of_eq cid hph (by decide) hnow)
    | trigPending =>
      exact invC1_sched _ _ _ (invC1_setPhase_of_eq cid hph (by decide) hnow)
    | queuedFired => exact hnow
    | trigFired => exact hnow
    | procFired => exact hnow
    | swapping => exact hnow
    | doneSuccess => exact hnow
    | doneRejected => exact hnow
    | doneLeaked => exact hnow
  | condPop cid =>
    rw [step]
    dsimp only
    cases hph : (getCust ({ s with now := t } : StationState T) cid).phase with
    | procFired =>
      exact invC1_sched _ _ _ (invC1_setPhase_of_eq cid hph (by decide) hnow)
    | queuedFired =>
      exact invC1_setPhase_of_eq cid hph (by decide) hnow
    | trigFired =>
      exact invC1_setPhase_of_eq cid hph (by decide) hnow
    | queuedPending => exact hnow
    | trigPending => exact hnow
    | swapping => exact hnow
    | doneSuccess => exact hnow
    | doneRejected => exact hnow
    | doneLeaked => exact hnow
  | swapEnd cid wait =>
    rw [step]
    dsimp only
    cases hph : (getCust ({ s with now := t } : StationState T) cid).phase with
    | swapping =>
      exact invC1_sched _ _ _
        (invC1_logInventory (invC1_swapDone ({ s with now := t })
          cid (s.successful_swaps + 1)
          (s.swap_events ++ [(⟨t, "swap_end", cid, wait⟩ : SwapEv T)]) hph hnow))
    | queuedPending => exact hnow
    | trigPending => exact hnow
    | queuedFired => exact hnow
    | trigFired => exact hnow
    | procFired => exact hnow
    | doneSuccess => exact hnow
    | doneRejected => exact hnow
    | doneLeaked => exact hnow
  | chargeInit =>
    rw [step]
    dsimp only
    exact invC1_sched _ _ _ hnow
  | chargeTimeout =>
    rw [step]
    dsimp only
    by_cases hl : s.level + 1 ≤ s.chargers
    · rw [if_pos hl]
      exact invC1_sched _ _ _ (invC1_chargeReturn ({ s with now := t })
        (s.charge_events ++ [(⟨t, "charge_end"⟩ : ChargeEv T)])
        (s.charging_count - 1) hnow)
    · rw [if_neg hl]
      exact invC1_depletedDec ({ s with now := t })
        (s.charge_events ++ [(⟨t, "charge_end"⟩ : ChargeEv T)])
        (s.charging_count - 1) hnow
  | putPop =>
    rw [step]
    dsimp only
    exact invC1_logInventory (invC1_serveQueue hnow)

lemma invC1_runSteps {c : ℕ} (horizon : T) (fuel : ℕ) :
    ∀ s : StationState T, InvC1 c s → InvC1 c (runSteps horizon fuel s) := by
  induction fuel with
  | zero => exact fun s h => h
  | succ n ih =>
    intro s h
    rw [runSteps]
    cases hh : s.heap with
    | nil => exact h
    | cons e rest =>
      dsimp only
      by_cases ht : e.time < horizon
      · rw [if_pos ht]
        exact ih _ (invC1_step e (h : InvC1 c ({ s with heap := rest } : StationState T)))
      · rw [if_neg ht]
        exact h

lemma invC1_foldSched {c : ℕ} (l : List ℕ) :
    ∀ s : StationState T, InvC1 c s →
      InvC1 c (l.foldl (fun s _ => sched s 0 0 .chargeInit) s) := by
  induction l with
  | nil => exact fun s h => h
  | cons x xs ih =>
    intro s h
    rw [List.foldl_cons]
    exact ih _ (invC1_sched _ _ _ h)

lemma invC1_initStation (chargers initial_charged : ℕ)
    (swap_d charge_d max_wait : T) (arrivals : List T) :
    InvC1 chargers
      (initStation chargers initial_charged swap_d charge_d max_wait arrivals) := by
  rw [initStation.eq_def]
  dsimp only
  have h0 : InvC1 chargers
      ({ chargers := chargers, swap_duration := swap_d,
         charge_duration := charge_d, max_wait_time := max_wait,
         arrivals := arrivals, now := 0,
         level := min initial_charged chargers,
         depleted_count := (chargers : ℤ) - ((min initial_charged chargers : ℕ) : ℤ),
         charging_count := 0, total_arrivals := 0, successful_swaps := 0,
         rejected_swaps := 0, total_wait_time := 0, getQueue := [], custs := [],
         heap := [], nextEid := 0, swap_events := [], charge_events := [],
         inventory_events := [] } : StationState T) := by
    refine ⟨rfl, ?_, ?_⟩
    · show ((min initial_charged chargers : ℕ) : ℤ)
          + ((chargers : ℤ) - ((min initial_charged chargers : ℕ) : ℤ))
          + holdingZ ([] : List (Cust T)) ≤ (chargers : ℤ)
      rw [holdingZ_nil]
      linarith
    · intro ev hev
      exact absurd hev (List.not_mem_nil ev)
  cases arrivals with
  | nil => exact invC1_logInventory (invC1_foldSched _ _ h0)
  | cons t0 rest =>
    exact invC1_sched _ _ _ (invC1_logInventory (invC1_foldSched _ _ h0))

end C1Inv

/-- **C1, counterexample.** The conservation *equality*
`charged_count + depleted_count == charger_count` fails on logged
inventory entries while swaps are in flight: with 2 chargers, 2 charged
units, swap duration 5 and arrivals at 1 and 2 (integer times, so float
arithmetic is exact), the entry logged at the first swap's end (time 6)
has `charged_count = 0` and `depleted_count = 1`, and `0 + 1 ≠ 2` — the
second customer's unit is out of the pool but not yet depleted. -/
theorem C1_counterexample :
    (⟨6, 0, 1⟩ : InvEv ℤ) ∈
      (runStation 2 2 (5 : ℤ) 100 15 [1, 2] 1000 200).inventory_events ∧
    ¬((⟨6, 0, 1⟩ : InvEv ℤ).charged_count
      + (⟨6, 0, 1⟩ : InvEv ℤ).depleted_count = 2) := by
  decide

/-- **C1, amended.** For every station configuration and bounded run,
every entry appended to the inventory event log satisfies
`charged_count + depleted_count ≤ charger_count` (the spec's equality
weakened to an inequality; the gap is exactly the number of units
currently held by in-flight or leaked customers). -/
theorem C1_inventory_bound {T : Type} [AddCommGroup T] [LinearOrder T]
    (chargers initial_charged : ℕ) (swap_d charge_d max_wait : T)
    (arrivals : List T) (horizon : T) (fuel : ℕ) (ev : InvEv T)
    (hev : ev ∈ (runStation chargers initial_charged swap_d charge_d max_wait
      arrivals horizon fuel).inventory_events) :
    ev.charged_count + ev.depleted_count ≤ (chargers : ℤ) := by
  have h := invC1_runSteps horizon fuel _
    (invC1_initStation chargers initial_charged swap_d charge_d max_wait arrivals)
  exact h.2.2 ev hev

/-- **C1, witness.** The amended bound evaluated at the counterexample
run's initial inventory entry. -/
theorem C1_inventory_bound_witness :
    (⟨0, 2, 0⟩ : InvEv ℤ) ∈
      (runStation 2 2 (5 : ℤ) 100 15 [1, 2] 1000 200).inventory_events ∧
    (⟨0, 2, 0⟩ : InvEv ℤ).charged_count
      + (⟨0, 2, 0⟩ : InvEv ℤ).depleted_count ≤ ((2 : ℕ) : ℤ) :=
  ⟨by decide, C1_inventory_bound 2 2 5 100 15 [1, 2] 1000 200 ⟨0, 2, 0⟩ (by decide)⟩

/-- **C3.** The patience race is not exactly-one-clean: when a unit
becomes available at exactly `arrival + max_wait_time` and the charge
timeout's event id precedes the patience timeout's, the get request
triggers (the level is decremented) before the timeout is processed, so
`battery_request.cancel()` does not withdraw it and the unit is silently
consumed by the departed customer.  With 1 charger, 0 charged units,
charge duration 20 and one arrival at time 5 with `max_wait_time = 15`
(all integers, so the float times are exact): the customer is rejected
at time 20 with the logged wait equal to `max_wait_time`, no swap ever
succeeds, and at the end of the run — with no event left in the queue —
the station's single unit has vanished: the pool level, the depleted
count and the in-charge count are all 0 and the customer ends in the
leaked phase. -/
theorem C3_cancellation_counterexample :
    (runStation 1 0 (1 : ℤ) 20 15 [5] 1000 200).rejected_swaps = 1 ∧
    (runStation 1 0 (1 : ℤ) 20 15 [5] 1000 200).successful_swaps = 0 ∧
    (⟨20, "rejected", 0, 15⟩ : SwapEv ℤ) ∈
      (runStation 1 0 (1 : ℤ) 20 15 [5] 1000 200).swap_events ∧
    (runStation 1 0 (1 : ℤ) 20 15 [5] 1000 200).heap = [] ∧
    (runStation 1 0 (1 : ℤ) 20 15 [5] 1000 200).level = 0 ∧
    (runStation 1 0 (1 : ℤ) 20 15 [5] 1000 200).depleted_count = 0 ∧
    (runStation 1 0 (1 : ℤ) 20 15 [5] 1000 200).charging_count = 0 ∧
    (getCust (runStation 1 0 (1 : ℤ) 20 15 [5] 1000 200) 0).phase
      = CPhase.doneLeaked := by
  decide

/-- **C9.** Patience monotonicity fails: on the fixed arrival times 5,
30, 60, 90 (1 charger, 0 initial units, swap duration 1, charge duration
20, integer times), raising `max_wait_time` from 10 to 15 moves each
customer's timeout onto the exact instant a unit becomes available, so
every unit is leaked via the C3 race; the rejected count rises from 1 to
4 and the successful count falls from 3 to 0. -/
theorem C9_monotonicity_counterexample :
    (runStation 1 0 (1 : ℤ) 20 10 [5, 30, 60, 90] 1000 400).rejected_swaps = 1 ∧
    (runStation 1 0 (1 : ℤ) 20 10 [5, 30, 60, 90] 1000 400).successful_swaps = 3 ∧
    (runStation 1 0 (1 : ℤ) 20 15 [5, 30, 60, 90] 1000 400).rejected_swaps = 4 ∧
    (runStation 1 0 (1 : ℤ) 20 15 [5, 30, 60, 90] 1000 400).successful_swaps = 0 := by
  decide

end HackSmart
